import Mathlib

/-!
# bind-dyndb-ldap: DN conversion, connection pool, entry cache and rdata lists

A shallow embedding of `src/ldap_convert.c` and of the connection-pool,
entry-cache, entry-cursor and rdata-list parts of `src/ldap_helper.c`, with
theorems about them.

Conventions of the embedding:

* a NULL-terminated `char **` array is a `List String`; a pointer that may be
  NULL is an `Option`;
* `unsigned int` values are `Nat` reduced modulo `2^32` where the C arithmetic
  can wrap;
* calls into libraries outside the repository (OpenLDAP, BIND/ISC) are
  parameters of the embedded functions;
* a failed `REQUIRE` / `INSIST` / `RUNTIME_CHECK` is the `abort` branch of the
  result.
-/

namespace LdapConvert

/-! ## Result codes -/

/-- The `isc_result_t` values that occur in the embedded code. -/
inductive isc_result_t
  | ISC_R_SUCCESS
  | ISC_R_NOMEMORY
  | ISC_R_NOSPACE
  | ISC_R_NOTFOUND
  | ISC_R_FAILURE
  | ISC_R_LOCKBUSY
  | DNS_R_LABELTOOLONG
  | DNS_R_BADLABELTYPE
  deriving DecidableEq, Repr

open isc_result_t

/-- Value of `ENOMEM` in `errno.h`. -/
def ENOMEM : Nat := 12

/-- Value of `EINVAL` in `errno.h`. -/
def EINVAL : Nat := 22

/-- Number of values of an `unsigned int`. -/
def UINT_RANGE : Nat := 2 ^ 32

/-! ## `ldap_convert.c` -/

/-- What one call of the OpenLDAP function `ldap_explode_dn` yields: NULL with
the `errno` it leaves, or the components in order. -/
inductive ExplodeResult
  | null (errno : Nat)
  | array (rdns : List String)
  deriving DecidableEq, Repr

/-- What the OpenLDAP call `ldap_explode_dn(dn, notypes)` computes from the text
of a DN. -/
abbrev ExplodeFn := String → Int → ExplodeResult

/-- An exploded DN as the C code sees it: the address of the array that the
library allocated, and the strings in it up to the terminating NULL. -/
structure Exploded where
  addr : Nat
  rdns : List String
  deriving DecidableEq, Repr

/-- The function `explode_dn`: `ldap_explode_dn` returned NULL with `errno ==
ENOMEM` gives `ISC_R_NOMEMORY`, NULL with another `errno` gives `ISC_R_FAILURE`,
otherwise the array is stored through `explodedp`. `addr` is the address at
which the library placed the array. -/
def explode_dn (ldap_explode_dn : ExplodeFn) (addr : Nat) (dn : String) (notypes : Int) :
    isc_result_t × Option Exploded :=
  match ldap_explode_dn dn notypes with
  | .null errno =>
    if errno = ENOMEM then (ISC_R_NOMEMORY, none) else (ISC_R_FAILURE, none)
  | .array exploded => (ISC_R_SUCCESS, some ⟨addr, exploded⟩)

/-- The loop of `count_rdns`, walking the array while `ret` is incremented as
an `unsigned int`. -/
def count_rdns_from : List String → Nat → Nat
  | [], ret => ret
  | _ :: rest, ret => count_rdns_from rest ((ret + 1) % UINT_RANGE)

/-- The function `count_rdns`: number of entries before the terminating NULL. -/
def count_rdns (exploded : List String) : Nat :=
  count_rdns_from exploded 0

/-- The `for` loop of `dn_to_text`: `rest` is `exploded_dn + i`; the loop stops
at the terminating NULL or when `i < count` fails, and each round appends the
component and a dot to `target`. -/
def dn_to_text_loop : List String → Nat → Nat → String → String
  | [], _, _, target => target
  | rdn :: rest, count, i, target =>
    if i < count then dn_to_text_loop rest count (i + 1) ((target ++ rdn) ++ ".")
    else target

/-- The part of `dn_to_text` after the root check: `str_init_char(target, "")`,
the `for` loop, and the replacement of an empty text by the root label. -/
def dn_to_text_write (exploded_dn : List String) (count : Nat) : String :=
  let target := dn_to_text_loop exploded_dn count 0 ""
  if target.length = 0 then "." else target

/-- The function `dn_to_text`. `addr_dn` and `addr_root` are the addresses at
which the library places the two exploded arrays of this run; `target` is the
text held by the caller's string on entry. The result is the returned code and
the text of `target` on return. `count -= count_root` is `unsigned int`
arithmetic. The string operations `str_init_char` and `str_cat_char`, whose
results the code does not look at, are taken to succeed. -/
def dn_to_text (ldap_explode_dn : ExplodeFn) (addr_dn addr_root : Nat)
    (dn : String) (root_dn : Option String) (target : String) : isc_result_t × String :=
  match explode_dn ldap_explode_dn addr_dn dn 1 with
  | (ISC_R_SUCCESS, some exploded_dn) =>
    let count := count_rdns exploded_dn.rdns
    match root_dn with
    | none => (ISC_R_SUCCESS, dn_to_text_write exploded_dn.rdns count)
    | some root =>
      match explode_dn ldap_explode_dn addr_root root 1 with
      | (ISC_R_SUCCESS, some exploded_root) =>
        let count_root := count_rdns exploded_root.rdns
        if exploded_root.addr > exploded_dn.addr then (ISC_R_FAILURE, target)
        else
          let count := (count + UINT_RANGE - count_root) % UINT_RANGE
          (ISC_R_SUCCESS, dn_to_text_write exploded_dn.rdns count)
      | (result, _) => (result, target)
  | (result, _) => (result, target)

/-- The local `tmp_name` of `dn_to_dnsname`: not yet initialised, initialised
and empty, or holding a parsed name in wire format. -/
inductive TmpName
  | uninitialised
  | empty
  | parsed (wire : List Nat)
  deriving DecidableEq, Repr

/-- The BIND calls that `dn_to_dnsname` makes. `dns_name_fromtext` parses a text
against the root origin and yields a result code and, on success, the wire
format of the name; on failure it leaves the name empty.
`dns_name_dupwithoffsets` copies the source name and yields a result code. -/
structure DnsLib where
  dns_name_fromtext : String → isc_result_t × Option (List Nat)
  dns_name_dupwithoffsets : TmpName → isc_result_t

/-- What a run of `dn_to_dnsname` leaves behind: the returned code, the source
name passed to `dns_name_dupwithoffsets` when that call was made, and the
caller's `target` name when the duplication succeeded. -/
structure DnsnameRun where
  result : isc_result_t
  dup_source : Option TmpName
  target : Option TmpName
  deriving DecidableEq, Repr

/-- The `cleanup:` part of `dn_to_dnsname`: unless `result` is `ISC_R_FAILURE`
the name in `tmp_name` is duplicated into `target` and the result of the
duplication is returned. -/
def dn_to_dnsname_cleanup (lib : DnsLib) (result : isc_result_t) (tmp_name : TmpName) :
    DnsnameRun :=
  if result ≠ ISC_R_FAILURE then
    let result := lib.dns_name_dupwithoffsets tmp_name
    { result := result, dup_source := some tmp_name,
      target := if result = ISC_R_SUCCESS then some tmp_name else none }
  else
    { result := result, dup_source := none, target := none }

/-- The function `dn_to_dnsname`. `str_new` is the result of the call
`str_new(mctx, &str)`. The source buffer holds the text without its last
character (`str_len(str) - 1`); the result of `dns_name_fromtext` is not
assigned to `result`. -/
def dn_to_dnsname (ldap_explode_dn : ExplodeFn) (lib : DnsLib) (str_new : isc_result_t)
    (addr_dn addr_root : Nat) (dn : String) (root_dn : Option String) : DnsnameRun :=
  if str_new ≠ ISC_R_SUCCESS then
    dn_to_dnsname_cleanup lib str_new TmpName.uninitialised
  else
    match dn_to_text ldap_explode_dn addr_dn addr_root dn root_dn "" with
    | (ISC_R_SUCCESS, str) =>
      let source_buffer := String.mk str.data.dropLast
      let tmp_name :=
        match (lib.dns_name_fromtext source_buffer).2 with
        | some wire => TmpName.parsed wire
        | none => TmpName.empty
      dn_to_dnsname_cleanup lib ISC_R_SUCCESS tmp_name
    | (result, _) => dn_to_dnsname_cleanup lib result TmpName.uninitialised

/-! ### A small exploder for examples -/

/-- Split a character list at every comma. -/
def splitCommas : List Char → List (List Char)
  | [] => [[]]
  | c :: cs =>
    match splitCommas cs with
    | [] => [[c]]
    | first :: more => if c = ',' then [] :: first :: more else (c :: first) :: more

/-- Drop everything up to and including the first `=` (the attribute type). -/
def stripType : List Char → List Char
  | [] => []
  | c :: cs => if c = '=' then cs else stripType cs

/-- An exploder for DNs without escapes, quoting or multi-valued RDNs: split at
commas, skip leading blanks and, when `notypes` is non-zero, strip the
attribute type. The empty DN has no component. It stands for the library call
in the examples only. -/
def simple_explode_dn : ExplodeFn := fun dn notypes =>
  if dn.data = [] then .array []
  else
    .array ((splitCommas dn.data).map fun rdn =>
      let rdn := rdn.dropWhile (fun c => c = ' ')
      String.mk (if notypes = 0 then rdn else stripType rdn))

/-- Value of `DNS_NAME_MAXWIRE` in BIND: the longest name in wire format. -/
def DNS_NAME_MAXWIRE : Nat := 255

/-- A name parser for examples: one label per dot-separated piece, each written
as its length followed by its character codes, closed by the root label. A
piece longer than 63 characters is refused as a label that is too long, a
name of more than `DNS_NAME_MAXWIRE` bytes for lack of space. The empty text
is the root name. -/
def simple_fromtext (text : String) : isc_result_t × Option (List Nat) :=
  let labels := splitCommas (text.data.map fun c => if c = '.' then ',' else c)
  let wire := (labels.flatMap fun l => l.length :: l.map Char.toNat) ++ [0]
  if text.data = [] then (ISC_R_SUCCESS, some [0])
  else if labels.any (fun l => 63 < l.length) then (DNS_R_LABELTOOLONG, none)
  else if DNS_NAME_MAXWIRE < wire.length then (ISC_R_NOSPACE, none)
  else (ISC_R_SUCCESS, some wire)

/-- A library for examples: `simple_fromtext`, and a duplication that succeeds.
-/
def simple_lib : DnsLib :=
  { dns_name_fromtext := simple_fromtext
    dns_name_dupwithoffsets := fun _ => ISC_R_SUCCESS }

/-- The DN of the example in the comment of `dn_to_text`. -/
def example_dn : String :=
  "idnsName=foo, idnsName=bar, idnsName=example.org, cn=dns, dc=example, dc=org"

/-- The root DN of the example in the comment of `dn_to_text`. -/
def example_root : String := "cn=dns, dc=example, dc=org"

/-- A DN of five components of sixty characters each below `cn=dns`; its name
takes 306 bytes in wire format. -/
def long_dn : String :=
  String.join (List.replicate 5 ("idnsName=" ++ String.mk (List.replicate 60 'a') ++ ", "))
    ++ "cn=dns"

/-- The components in order, each followed by a dot. -/
def dotted : List String → String
  | [] => ""
  | rdn :: rest => (rdn ++ ".") ++ dotted rest

end LdapConvert

/-! ## `ldap_helper.c` -/

namespace LdapHelper

open LdapConvert LdapConvert.isc_result_t

/-- The checks whose failure ends the process. The last case is no check of
the code: it stands for the use of a block that has been given back to the
memory context, where the C program has no defined behaviour. -/
inductive Check
  | REQUIRE
  | INSIST
  | RUNTIME_CHECK
  | fatal_error
  | use_after_free
  deriving DecidableEq, Repr

/-- Outcome of a call that can end the process at a failed check. -/
inductive Run (α : Type)
  | abort (check : Check)
  | ret (a : α)
  deriving DecidableEq, Repr

/-! ### Memory context -/

/-- The memory context as far as the code depends on it: for the coming calls
of `isc_mem_get`, in order, whether the call returns NULL (calls beyond the
list succeed), and the number of blocks handed out and given back so far. -/
structure isc_mem where
  failures : List Bool
  gets : Nat
  puts : Nat
  deriving DecidableEq, Repr

/-- The function `isc_mem_get`: whether a block was obtained, and the context
afterwards. -/
def isc_mem_get (mctx : isc_mem) : Bool × isc_mem :=
  match mctx.failures with
  | [] => (true, { mctx with gets := mctx.gets + 1 })
  | true :: rest => (false, { mctx with failures := rest })
  | false :: rest => (true, { mctx with failures := rest, gets := mctx.gets + 1 })

/-- The function `isc_mem_put`: a block is given back. -/
def isc_mem_put (mctx : isc_mem) : isc_mem :=
  { mctx with puts := mctx.puts + 1 }

/-! ### Results of a search, as the LDAP library presents them -/

/-- One entry message of a search result: its DN and its attributes, each with
its values. -/
structure LDAPEntry where
  dn : String
  attrs : List (String × List String)
  deriving DecidableEq, Repr

/-- A pointer into the chain of entry messages of a result: the messages from
the one pointed at to the end of the chain. The pointer to a result is the
whole chain. -/
abbrev LDAPMessage := List LDAPEntry

/-- The function `ldap_first_entry`: the first entry message of a result, NULL
if there is none. -/
def ldap_first_entry (res : LDAPMessage) : Option LDAPMessage :=
  match res with
  | [] => none
  | _ :: _ => some res

/-- The function `ldap_next_entry`: the entry message after the given one, NULL
at the end of the chain. -/
def ldap_next_entry (entry : LDAPMessage) : Option LDAPMessage :=
  match entry with
  | [] => none
  | _ :: rest => ldap_first_entry rest

/-- Comparison of attribute descriptions without regard to case. -/
def strcasecmp_eq (a b : String) : Bool :=
  a.data.map Char.toLower = b.data.map Char.toLower

/-- The function `ldap_get_values`: the values of the named attribute in the
message pointed at, NULL when the message has no such attribute. -/
def ldap_get_values (msg : LDAPMessage) (name : String) : Option (List String) :=
  match msg with
  | [] => none
  | e :: _ => (e.attrs.find? fun a => strcasecmp_eq a.1 name).map fun a => a.2

/-! ### Cache nodes and connections -/

/-- The C type `struct ldap_value`. -/
structure ldap_value_t where
  value : String
  deriving DecidableEq, Repr

/-- The C type `struct ldap_attribute`. -/
structure ldap_attribute_t where
  name : String
  ldap_values : Option (List String)
  values : List ldap_value_t
  deriving DecidableEq, Repr

/-- The C type `struct ldap_entry`. -/
structure ldap_entry_t where
  entry : LDAPMessage
  attributes : List ldap_attribute_t
  deriving DecidableEq, Repr

/-- The C type `struct ldap_instance`, without the parsing buffers. `lock` is
the mutex: the thread that holds it, if any. `handle` names the bound session.
`ber` is the attribute cursor: the attributes still to come. `attribute_` is the
field `attribute`. -/
structure ldap_instance_t where
  lock : Option Nat
  query_string : String
  base : String
  handle : Option Nat
  result : Option LDAPMessage
  ldap_entries : List ldap_entry_t
  cache_active : Bool
  entry : Option LDAPMessage
  ber : Option (List (String × List String))
  attribute_ : Option String
  values : Option (List String)
  dn : Option String
  deriving DecidableEq, Repr

/-- Authentication method, `enum ldap_auth`. -/
inductive ldap_auth_t
  | AUTH_INVALID
  | AUTH_NONE
  | AUTH_SIMPLE
  | AUTH_SASL
  deriving DecidableEq, Repr

/-- The C type `struct ldap_db`. `conn_semaphore` is the value of the semaphore.
The memory context that `mctx` points to is passed alongside. -/
structure ldap_db_t where
  conn_semaphore : Nat
  conn_list : List ldap_instance_t
  host : String
  base : String
  connections : Nat
  auth_method : ldap_auth_t
  deriving DecidableEq, Repr

/-! ### Freeing the cache -/

/-- The loop of `free_ldap_values`: every value node is unlinked and given back.
-/
def free_ldap_values_loop (mctx : isc_mem) : List ldap_value_t → isc_mem
  | [] => mctx
  | _ :: next => free_ldap_values_loop (isc_mem_put mctx) next

/-- The function `free_ldap_values`. -/
def free_ldap_values (mctx : isc_mem) (attr : ldap_attribute_t) : isc_mem × ldap_attribute_t :=
  (free_ldap_values_loop mctx attr.values, { attr with values := [] })

/-- The loop of `free_ldap_attributes`: for every attribute node, its values are
freed and the node is given back. -/
def free_ldap_attributes_loop (mctx : isc_mem) : List ldap_attribute_t → isc_mem
  | [] => mctx
  | attr :: next => free_ldap_attributes_loop (isc_mem_put (free_ldap_values mctx attr).1) next

/-- The function `free_ldap_attributes`. -/
def free_ldap_attributes (mctx : isc_mem) (entry : ldap_entry_t) : isc_mem × ldap_entry_t :=
  (free_ldap_attributes_loop mctx entry.attributes, { entry with attributes := [] })

/-- The loop of `free_query_cache`: for every entry node, its attributes are
freed and the node is given back. -/
def free_query_cache_loop (mctx : isc_mem) : List ldap_entry_t → isc_mem
  | [] => mctx
  | entry :: next => free_query_cache_loop (isc_mem_put (free_ldap_attributes mctx entry).1) next

/-- The function `free_query_cache`: the entry list is emptied and the cache
marked inactive. -/
def free_query_cache (mctx : isc_mem) (inst : ldap_instance_t) : isc_mem × ldap_instance_t :=
  (free_query_cache_loop mctx inst.ldap_entries,
    { inst with ldap_entries := [], cache_active := false })

/-! ### Filling the cache -/

/-- The loop of `fill_ldap_attribute` over the value array: a node is obtained
for each value and appended; when `isc_mem_get` fails the nodes linked so far
are freed and the result is `ISC_R_NOMEMORY`. -/
def fill_ldap_attribute_loop (mctx : isc_mem) (ldap_attr : ldap_attribute_t) :
    List String → isc_result_t × isc_mem × ldap_attribute_t
  | [] => (ISC_R_SUCCESS, mctx, ldap_attr)
  | value :: more =>
    match isc_mem_get mctx with
    | (false, mctx) =>
      let freed := free_ldap_values mctx ldap_attr
      (ISC_R_NOMEMORY, freed.1, freed.2)
    | (true, mctx) =>
      fill_ldap_attribute_loop mctx
        { ldap_attr with values := ldap_attr.values ++ [{ value := value }] } more

/-- The function `fill_ldap_attribute`: the values are read with
`ldap_get_values(inst->handle, inst->result, ldap_attr->name)`, that is from
the message that `inst->result` points at. -/
def fill_ldap_attribute (mctx : isc_mem) (inst : ldap_instance_t) (ldap_attr : ldap_attribute_t) :
    isc_result_t × isc_mem × ldap_attribute_t :=
  match ldap_get_values (inst.result.getD []) ldap_attr.name with
  | none => (ISC_R_FAILURE, mctx, ldap_attr)
  | some values =>
    fill_ldap_attribute_loop mctx { ldap_attr with ldap_values := some values } values

/-- The loop of `fill_ldap_entry` over the attributes of the entry message: a
node is obtained and filled for each attribute and appended; on a failure the
attributes appended so far are freed (the `cleanup:` part) and the failure is
returned. -/
def fill_ldap_entry_loop (mctx : isc_mem) (inst : ldap_instance_t) (ldap_entry : ldap_entry_t) :
    List (String × List String) → isc_result_t × isc_mem × ldap_entry_t
  | [] => (ISC_R_SUCCESS, mctx, ldap_entry)
  | attr :: more =>
    match isc_mem_get mctx with
    | (false, mctx) =>
      let freed := free_ldap_attributes mctx ldap_entry
      (ISC_R_NOMEMORY, freed.1, freed.2)
    | (true, mctx) =>
      match fill_ldap_attribute mctx inst
          { name := attr.1, ldap_values := none, values := [] } with
      | (ISC_R_SUCCESS, mctx, ldap_attr) =>
        fill_ldap_entry_loop mctx inst
          { ldap_entry with attributes := ldap_entry.attributes ++ [ldap_attr] } more
      | (result, mctx, _) =>
        let freed := free_ldap_attributes mctx ldap_entry
        (result, freed.1, freed.2)

/-- The function `fill_ldap_entry`: the attributes are those of the message
`ldap_entry->entry`. -/
def fill_ldap_entry (mctx : isc_mem) (inst : ldap_instance_t) (ldap_entry : ldap_entry_t) :
    isc_result_t × isc_mem × ldap_entry_t :=
  match ldap_entry.entry with
  | [] => (ISC_R_SUCCESS, mctx, ldap_entry)
  | e :: _ => fill_ldap_entry_loop mctx inst ldap_entry e.attrs

/-- The loop of `cache_query_results` over the entry messages, `entry` being
the current message (NULL ends the loop): a node is obtained and filled for
each message and appended; on a failure the cache is freed (the `cleanup:`
part) and the failure is returned. -/
def cache_query_results_loop (mctx : isc_mem) (inst : ldap_instance_t) :
    LDAPMessage → isc_result_t × isc_mem × ldap_instance_t
  | [] => (ISC_R_SUCCESS, mctx, inst)
  | e :: next =>
    match isc_mem_get mctx with
    | (false, mctx) =>
      let freed := free_query_cache mctx inst
      (ISC_R_NOMEMORY, freed.1, freed.2)
    | (true, mctx) =>
      match fill_ldap_entry mctx inst { entry := e :: next, attributes := [] } with
      | (ISC_R_SUCCESS, mctx, ldap_entry) =>
        cache_query_results_loop mctx
          { inst with ldap_entries := inst.ldap_entries ++ [ldap_entry] } next
      | (result, mctx, _) =>
        let freed := free_query_cache mctx inst
        (result, freed.1, freed.2)

/-- The function `cache_query_results`: requires an empty entry list and a
stored result. -/
def cache_query_results (mctx : isc_mem) (inst : ldap_instance_t) :
    Run (isc_result_t × isc_mem × ldap_instance_t) :=
  if inst.ldap_entries ≠ [] then Run.abort Check.REQUIRE
  else
    match inst.result with
    | none => Run.abort Check.REQUIRE
    | some res =>
      let inst := { inst with ldap_entries := [] }
      let cleared := if inst.cache_active then free_query_cache mctx inst else (mctx, inst)
      Run.ret (cache_query_results_loop cleared.1 cleared.2 res)

/-- The function `fill_cache_if_empty`. -/
def fill_cache_if_empty (mctx : isc_mem) (inst : ldap_instance_t) :
    Run (isc_result_t × isc_mem × ldap_instance_t) :=
  if inst.cache_active then Run.ret (ISC_R_SUCCESS, mctx, inst)
  else cache_query_results mctx inst

/-! ### Construction of the pool -/

/-- Outcomes of the calls that the construction of a pool makes outside the
embedded code: the `k`-th call of `str_new`, `set_settings`, `semaphore_init`,
and for the `i`-th connection `isc_mutex_init`, `ldap_initialize` and
`ldap_simple_bind_s` (whether they report success). -/
structure InitCalls where
  str_new : Nat → isc_result_t
  set_settings : isc_result_t
  semaphore_init : isc_result_t
  isc_mutex_init : Nat → isc_result_t
  ldap_initialize_ok : Nat → Bool
  ldap_simple_bind_ok : Nat → Bool

/-- The function `ldap_connect` for the `i`-th connection: the handle is stored
only when both the initialisation and the bind succeed; a method other than
`AUTH_NONE` ends the process. -/
def ldap_connect (calls : InitCalls) (auth_method : ldap_auth_t) (i : Nat)
    (ldap_inst : ldap_instance_t) : Run (isc_result_t × ldap_instance_t) :=
  if calls.ldap_initialize_ok i = false then Run.ret (ISC_R_FAILURE, ldap_inst)
  else
    match auth_method with
    | ldap_auth_t.AUTH_NONE =>
      if calls.ldap_simple_bind_ok i = false then Run.ret (ISC_R_FAILURE, ldap_inst)
      else Run.ret (ISC_R_SUCCESS, { ldap_inst with handle := some i })
    | _ => Run.abort Check.fatal_error

/-- The zeroed `ldap_instance_t` that `new_ldap_instance` starts from. -/
def zero_instance : ldap_instance_t :=
  { lock := none, query_string := "", base := "", handle := none, result := none,
    ldap_entries := [], cache_active := false, entry := none, ber := none,
    attribute_ := none, values := none, dn := none }

/-- The function `new_ldap_instance` for the `i`-th connection; its two calls of
`str_new` are the calls number `2 + 2 * i` and `3 + 2 * i`. The last component
tells whether the call has given back the block of the pool `ldap_db`: after a
failed `isc_mutex_init` the source passes `ldap_db`, not `ldap_inst`, to
`isc_mem_put`, so that the pool is given back and the block of the connection
is kept. After a failed `str_new` the `cleanup:` part gives the block of the
connection back through `destroy_ldap_instance`. -/
def new_ldap_instance (calls : InitCalls) (i : Nat) (mctx : isc_mem) :
    isc_result_t × isc_mem × Option ldap_instance_t × Bool :=
  match isc_mem_get mctx with
  | (false, mctx) => (ISC_R_NOMEMORY, mctx, none, false)
  | (true, mctx) =>
    if calls.isc_mutex_init i ≠ ISC_R_SUCCESS then
      (calls.isc_mutex_init i, isc_mem_put mctx, none, true)
    else if calls.str_new (2 + 2 * i) ≠ ISC_R_SUCCESS then
      (calls.str_new (2 + 2 * i), isc_mem_put mctx, none, false)
    else if calls.str_new (3 + 2 * i) ≠ ISC_R_SUCCESS then
      (calls.str_new (3 + 2 * i), isc_mem_put mctx, none, false)
    else (ISC_R_SUCCESS, mctx, some zero_instance, false)

/-- The loop of `destroy_ldap_db`: every connection is unlinked and its block
given back. -/
def destroy_ldap_db_loop (mctx : isc_mem) : List ldap_instance_t → isc_mem
  | [] => mctx
  | _ :: next => destroy_ldap_db_loop (isc_mem_put mctx) next

/-- The function `destroy_ldap_db`: the connections and then the pool itself are
given back. -/
def destroy_ldap_db (mctx : isc_mem) (ldap_db : ldap_db_t) : isc_mem :=
  isc_mem_put (destroy_ldap_db_loop mctx ldap_db.conn_list)

/-- The loop of `new_ldap_db` that creates the connections, `todo` being
`connections - i`: each new connection tries to connect, the result of
`ldap_connect` is not looked at, and the connection is appended. The last
component tells whether a failed `new_ldap_instance` has given back the block
of the pool. -/
def new_ldap_db_loop (calls : InitCalls) :
    Nat → Nat → isc_mem → ldap_db_t → Run (isc_result_t × isc_mem × ldap_db_t × Bool)
  | 0, _, mctx, ldap_db => Run.ret (ISC_R_SUCCESS, mctx, ldap_db, false)
  | todo + 1, i, mctx, ldap_db =>
    match new_ldap_instance calls i mctx with
    | (ISC_R_SUCCESS, mctx, some ldap_inst, _) =>
      match ldap_connect calls ldap_db.auth_method i ldap_inst with
      | Run.abort check => Run.abort check
      | Run.ret (_, ldap_inst) =>
        new_ldap_db_loop calls todo (i + 1) mctx
          { ldap_db with conn_list := ldap_db.conn_list ++ [ldap_inst] }
    | (result, mctx, _, freed) => Run.ret (result, mctx, ldap_db, freed)

/-- The function `new_ldap_db`, for the settings `host`, `base` and
`connections` that `set_settings` stores. On success the pool is returned; on a
failure what was built is destroyed. When the failure is that of a
`new_ldap_instance` which has given the pool back, the `cleanup:` part runs
`destroy_ldap_db` on that freed pool. -/
def new_ldap_db (calls : InitCalls) (host base : String) (connections : Nat)
    (mctx : isc_mem) : Run (isc_result_t × isc_mem × Option ldap_db_t) :=
  match isc_mem_get mctx with
  | (false, mctx) => Run.ret (ISC_R_NOMEMORY, mctx, none)
  | (true, mctx) =>
    let ldap_db : ldap_db_t :=
      { conn_semaphore := 0, conn_list := [], host := "", base := "", connections := 0,
        auth_method := ldap_auth_t.AUTH_NONE }
    if calls.str_new 0 ≠ ISC_R_SUCCESS then
      Run.ret (calls.str_new 0, destroy_ldap_db mctx ldap_db, none)
    else if calls.str_new 1 ≠ ISC_R_SUCCESS then
      Run.ret (calls.str_new 1, destroy_ldap_db mctx ldap_db, none)
    else if calls.set_settings ≠ ISC_R_SUCCESS then
      Run.ret (calls.set_settings, destroy_ldap_db mctx ldap_db, none)
    else
      let ldap_db := { ldap_db with host := host, base := base, connections := connections }
      if connections < 1 then Run.ret (ISC_R_FAILURE, destroy_ldap_db mctx ldap_db, none)
      else if calls.semaphore_init ≠ ISC_R_SUCCESS then
        Run.ret (calls.semaphore_init, destroy_ldap_db mctx ldap_db, none)
      else
        let ldap_db := { ldap_db with conn_semaphore := connections }
        match new_ldap_db_loop calls connections 0 mctx ldap_db with
        | Run.abort check => Run.abort check
        | Run.ret (ISC_R_SUCCESS, mctx, ldap_db, _) =>
          Run.ret (ISC_R_SUCCESS, mctx, some ldap_db)
        | Run.ret (_, _, _, true) => Run.abort Check.use_after_free
        | Run.ret (result, mctx, ldap_db, false) =>
          Run.ret (result, destroy_ldap_db mctx ldap_db, none)

/-! ### Checking a connection out and in -/

/-- Modelled from the spec: the counting semaphore of `semaphore.h`, whose
implementation is not among the sources. `semaphore_wait` takes a slot when
one is free and blocks (`none`) when the value is zero. -/
def semaphore_wait (sem : Nat) : Option Nat :=
  if sem = 0 then none else some (sem - 1)

/-- Modelled from the spec: the counting semaphore of `semaphore.h`.
`semaphore_signal` frees a slot. -/
def semaphore_signal (sem : Nat) : Nat :=
  sem + 1

/-- The function `isc_mutex_trylock` by the thread `self`: the lock is taken
when nobody holds it, otherwise the call reports that the lock is busy. -/
def isc_mutex_trylock (self : Nat) (ldap_inst : ldap_instance_t) :
    isc_result_t × ldap_instance_t :=
  match ldap_inst.lock with
  | none => (ISC_R_SUCCESS, { ldap_inst with lock := some self })
  | some _ => (ISC_R_LOCKBUSY, ldap_inst)

/-- The macro `UNLOCK`. -/
def UNLOCK (ldap_inst : ldap_instance_t) : ldap_instance_t :=
  { ldap_inst with lock := none }

/-- The part of `get_connection` after the connection is locked: the entry
list is initialised and the base DN of the pool copied. -/
def get_connection_init (ldap_db : ldap_db_t) (ldap_inst : ldap_instance_t) : ldap_instance_t :=
  { ldap_inst with ldap_entries := [], base := ldap_db.base }

/-- The part of `put_connection` before the connection is unlocked: the cursor
fields `dn`, `values`, `attribute`, `ber` and `result` are freed and set to
NULL, and the cache is freed. -/
def put_connection_free (mctx : isc_mem) (ldap_inst : ldap_instance_t) :
    isc_mem × ldap_instance_t :=
  free_query_cache mctx
    { ldap_inst with dn := none, values := none, attribute_ := none, ber := none,
                     result := none }

/-- The scan of `get_connection` from the `i`-th connection on: the index of
the first connection whose lock could be taken and that connection, locked;
`none` when the scan reaches the end of the list. -/
def get_connection_scan (self : Nat) : List ldap_instance_t → Nat → Option (Nat × ldap_instance_t)
  | [], _ => none
  | ldap_inst :: next, i =>
    match isc_mutex_trylock self ldap_inst with
    | (ISC_R_SUCCESS, ldap_inst) => some (i, ldap_inst)
    | _ => get_connection_scan self next (i + 1)

/-- The function `get_connection`, run by the thread `self` without
interference: `none` when the call blocks at the semaphore, otherwise the index
of the connection returned and the pool afterwards, or the failed
`RUNTIME_CHECK`. -/
def get_connection (self : Nat) (ldap_db : ldap_db_t) : Option (Run (Nat × ldap_db_t)) :=
  match semaphore_wait ldap_db.conn_semaphore with
  | none => none
  | some sem =>
    match get_connection_scan self ldap_db.conn_list 0 with
    | none => some (Run.abort Check.RUNTIME_CHECK)
    | some (i, ldap_inst) =>
      some (Run.ret (i,
        { ldap_db with
          conn_semaphore := sem
          conn_list := ldap_db.conn_list.set i (get_connection_init ldap_db ldap_inst) }))

/-- The function `put_connection` on the `i`-th connection of the pool. -/
def put_connection (mctx : isc_mem) (ldap_db : ldap_db_t) (i : Nat) : isc_mem × ldap_db_t :=
  match ldap_db.conn_list[i]? with
  | none => (mctx, ldap_db)
  | some ldap_inst =>
    let freed := put_connection_free mctx ldap_inst
    (freed.1,
      { ldap_db with
        conn_list := ldap_db.conn_list.set i (UNLOCK freed.2)
        conn_semaphore := semaphore_signal ldap_db.conn_semaphore })

/-! ### Callers running concurrently -/

/-- Where a caller thread stands: outside the pool code, in the scan of
`get_connection` about to try the lock of the `i`-th connection, holding the
`i`-th connection, or in `put_connection` between `UNLOCK` and
`semaphore_signal`. -/
inductive Caller
  | idle
  | scanning (i : Nat)
  | holding (i : Nat)
  | signalling
  deriving DecidableEq, Repr

/-- The atomic steps of a caller: `semaphore_wait` returning, one round of the
scan (`isc_mutex_trylock`, and the `RUNTIME_CHECK` at the end of the list),
any use `f` of the connection it holds, the part of `put_connection` up to
`UNLOCK`, and `semaphore_signal`. -/
inductive Op
  | wait
  | trylock
  | use (f : isc_mem × ldap_instance_t → isc_mem × ldap_instance_t)
  | unlock
  | signal

/-- The pool, the memory context and the callers; `aborted` once a
`RUNTIME_CHECK` has failed. -/
structure Sys where
  mctx : isc_mem
  db : ldap_db_t
  callers : List Caller
  aborted : Bool
  deriving DecidableEq, Repr

/-- A pool just constructed, with `threads` callers that are all idle. -/
def Sys.start (mctx : isc_mem) (ldap_db : ldap_db_t) (threads : Nat) : Sys :=
  { mctx := mctx, db := ldap_db, callers := List.replicate threads Caller.idle,
    aborted := false }

/-- One atomic step `op` of the caller `t`; `none` when the caller cannot take
that step in this state. -/
def Sys.step (s : Sys) (t : Nat) (op : Op) : Option Sys :=
  if s.aborted then none
  else
    match s.callers[t]?, op with
    | some Caller.idle, Op.wait =>
      match semaphore_wait s.db.conn_semaphore with
      | none => none
      | some sem =>
        some { s with db := { s.db with conn_semaphore := sem }
                      callers := s.callers.set t (Caller.scanning 0) }
    | some (Caller.scanning i), Op.trylock =>
      match s.db.conn_list[i]? with
      | none => some { s with aborted := true }
      | some ldap_inst =>
        match isc_mutex_trylock t ldap_inst with
        | (ISC_R_SUCCESS, ldap_inst) =>
          some { s with
                 db := { s.db with
                         conn_list := s.db.conn_list.set i (get_connection_init s.db ldap_inst) }
                 callers := s.callers.set t (Caller.holding i) }
        | _ => some { s with callers := s.callers.set t (Caller.scanning (i + 1)) }
    | some (Caller.holding i), Op.use f =>
      match s.db.conn_list[i]? with
      | none => none
      | some ldap_inst =>
        let used := f (s.mctx, ldap_inst)
        some { s with
               mctx := used.1
               db := { s.db with
                       conn_list := s.db.conn_list.set i { used.2 with lock := ldap_inst.lock } } }
    | some (Caller.holding i), Op.unlock =>
      match s.db.conn_list[i]? with
      | none => none
      | some ldap_inst =>
        let freed := put_connection_free s.mctx ldap_inst
        some { s with
               mctx := freed.1
               db := { s.db with conn_list := s.db.conn_list.set i (UNLOCK freed.2) }
               callers := s.callers.set t Caller.signalling }
    | some Caller.signalling, Op.signal =>
      some { s with db := { s.db with conn_semaphore := semaphore_signal s.db.conn_semaphore }
                    callers := s.callers.set t Caller.idle }
    | _, _ => none

/-- A sequence of steps, each by the named caller. -/
def Sys.run (s : Sys) : List (Nat × Op) → Option Sys
  | [] => some s
  | (t, op) :: more =>
    match s.step t op with
    | none => none
    | some s => Sys.run s more

/-- Whether the caller holds a connection. -/
def Caller.isHolding : Caller → Bool
  | Caller.holding _ => true
  | _ => false

/-- Whether the caller has passed `semaphore_wait` and not yet reached the end
of `semaphore_signal`. -/
def Caller.isBusy : Caller → Bool
  | Caller.idle => false
  | _ => true

/-- Number of callers holding a connection. -/
def Sys.checked_out (s : Sys) : Nat :=
  s.callers.countP Caller.isHolding

/-- What holds of a pool of `n` connections in use: the list has `n`
connections, the value of the semaphore and the callers past it add up to
`n`, and the lock of a connection that a caller holds is held by that
caller. -/
def Sys.Inv (n : Nat) (s : Sys) : Prop :=
  s.db.conn_list.length = n ∧
    s.db.conn_semaphore + s.callers.countP Caller.isBusy = n ∧
    ∀ t i : Nat, s.callers[t]? = some (Caller.holding i) →
      (s.db.conn_list[i]?).map (fun c => c.lock) = some (some t)

/-- Every connection that nobody has locked has an empty entry list and an
inactive cache. -/
def Sys.Clean (s : Sys) : Prop :=
  ∀ (i : Nat) (c : ldap_instance_t), s.db.conn_list[i]? = some c → c.lock = none →
    c.ldap_entries = [] ∧ c.cache_active = false

/-- The semaphore is at zero and no caller is in the scan: every caller is
idle, holds a connection, or is about to signal. -/
def Sys.Full (s : Sys) : Prop :=
  s.db.conn_semaphore = 0 ∧ ∀ t i : Nat, s.callers[t]? ≠ some (Caller.scanning i)

/-- Whether the step is the `semaphore_signal` that ends a `put_connection`. -/
def Op.isSignal : Op → Bool
  | Op.signal => true
  | _ => false

/-! ### Sample data -/

/-- A search result with one entry. -/
def sample_result : LDAPMessage :=
  [{ dn := "idnsName=example.org, cn=dns", attrs := [("idnsName", ["example.org"])] }]

/-- A connection held by thread 0 after a query, with the cache not yet filled.
-/
def sample_queried : ldap_instance_t :=
  { zero_instance with lock := some 0, handle := some 0, base := "cn=dns",
                       result := some sample_result }

/-- The cache that `sample_queried` gets from a successful fill. -/
def sample_cache : List ldap_entry_t :=
  [{ entry := sample_result
     attributes := [{ name := "idnsName", ldap_values := some ["example.org"],
                      values := [{ value := "example.org" }] }] }]

/-- A pool of one connection, checked out by thread 0 with a filled cache. -/
def sample_pool : ldap_db_t :=
  { conn_semaphore := 0
    conn_list := [{ sample_queried with ldap_entries := sample_cache }]
    host := "ldap://localhost", base := "cn=dns", connections := 1
    auth_method := ldap_auth_t.AUTH_NONE }

/-- The pool of two connections that `new_ldap_db` constructs when every call
succeeds. -/
def two_pool : ldap_db_t :=
  { conn_semaphore := 2
    conn_list := [{ zero_instance with handle := some 0 }, { zero_instance with handle := some 1 }]
    host := "ldap://localhost", base := "cn=dns", connections := 2
    auth_method := ldap_auth_t.AUTH_NONE }

/-- Steps by which callers 0 and 1 of three check out both connections of
`two_pool`. -/
def two_checkouts : List (Nat × Op) :=
  [(0, Op.wait), (1, Op.wait), (0, Op.trylock), (1, Op.trylock), (1, Op.trylock)]

/-- The state after `two_checkouts`: both connections are held, caller 2 is
idle. -/
def two_pool_full : Sys :=
  { mctx := ⟨[], 3, 0⟩
    db := { two_pool with
            conn_semaphore := 0
            conn_list := [{ zero_instance with lock := some 0, handle := some 0, base := "cn=dns" },
                          { zero_instance with lock := some 1, handle := some 1, base := "cn=dns" }] }
    callers := [Caller.holding 0, Caller.holding 1, Caller.idle]
    aborted := false }

/-- A library in which every call of the construction succeeds. -/
def all_succeed : InitCalls :=
  { str_new := fun _ => ISC_R_SUCCESS, set_settings := ISC_R_SUCCESS,
    semaphore_init := ISC_R_SUCCESS, isc_mutex_init := fun _ => ISC_R_SUCCESS,
    ldap_initialize_ok := fun _ => true, ldap_simple_bind_ok := fun _ => true }

end LdapHelper

namespace LdapHelper

open LdapConvert LdapConvert.isc_result_t

/-! ### The entry cursor -/

/-- The function `next_entry`: the attribute cursor is freed; with a handle and
a current entry the cursor moves to the next entry message, with a handle and
a result but no current entry it moves to the first entry message of the
result, otherwise it becomes NULL. The new cursor is returned. -/
def next_entry (inst : ldap_instance_t) : Option LDAPMessage × ldap_instance_t :=
  let inst := { inst with ber := none }
  let entry : Option LDAPMessage :=
    match inst.handle, inst.entry, inst.result with
    | some _, some entry, _ => ldap_next_entry entry
    | some _, none, some result => ldap_first_entry result
    | _, _, _ => none
  (entry, { inst with entry := entry })

/-- The connection after `calls` calls of `next_entry` in a row. -/
def next_entry_calls : Nat → ldap_instance_t → ldap_instance_t
  | 0, inst => inst
  | calls + 1, inst => next_entry_calls calls (next_entry inst).2

/-! ### What the claims expect of the cache -/

/-- The cache that a result set should give according to the specification:
one entry per entry message, in order, with the attributes of that message in
order, each holding the values that this message has for it. -/
def cache_of_result : LDAPMessage → List ldap_entry_t
  | [] => []
  | e :: next =>
    { entry := e :: next
      attributes := e.attrs.map fun a =>
        { name := a.1, ldap_values := some a.2, values := a.2.map fun v => { value := v } } }
      :: cache_of_result next

/-- A search result with two entries that both have the attribute `aRecord`. -/
def two_entries : LDAPMessage :=
  [{ dn := "idnsName=a, cn=dns", attrs := [("aRecord", ["192.0.2.1"])] },
   { dn := "idnsName=b, cn=dns", attrs := [("aRecord", ["192.0.2.2"])] }]

/-- A connection held by thread 0 after a query that returned `two_entries`. -/
def two_queried : ldap_instance_t :=
  { zero_instance with lock := some 0, handle := some 0, base := "cn=dns",
                       result := some two_entries }

/-- The connection as `new_ldap_db` appends it for the `i`-th round: a zeroed
connection, with the handle stored when initialisation and bind succeeded. -/
def created_connection (calls : InitCalls) (i : Nat) : ldap_instance_t :=
  if calls.ldap_initialize_ok i = true ∧ calls.ldap_simple_bind_ok i = true then
    { zero_instance with handle := some i }
  else zero_instance

/-- A library in which every call of the construction succeeds except that the
connections with an odd number fail to bind. -/
def odd_fail : InitCalls :=
  { all_succeed with ldap_simple_bind_ok := fun i => i % 2 = 0 }

end LdapHelper

namespace LdapHelper

open LdapConvert LdapConvert.isc_result_t

/-! ### Lists of rdata -/

/-- Value of `MINTSIZ`, the size of the conversion buffer. -/
def MINTSIZ : Nat := 65535 - 12 - 1 - 2 - 2 - 4 - 2

/-- Value of `dns_rdataclass_in` in BIND. -/
def dns_rdataclass_in : Nat := 1

/-- Value of `dns_rdatatype_ns` in BIND. -/
def dns_rdatatype_ns : Nat := 2

/-- An `isc_buffer_t` as far as the code reads it: the bytes of its memory and
the length of the used part. -/
structure isc_buffer_t where
  base : List Nat
  used : Nat
  deriving DecidableEq, Repr

/-- A `dns_rdata_t` node: the bytes it owns, their length, class and type. -/
structure dns_rdata_t where
  data : List Nat
  length : Nat
  rdclass : Nat
  type : Nat
  deriving DecidableEq, Repr

/-- A `dns_rdatalist_t` bucket: class, type and TTL, and the nodes linked to it. -/
structure dns_rdatalist_t where
  rdclass : Nat
  type : Nat
  ttl : Nat
  rdata : List dns_rdata_t
  deriving DecidableEq, Repr

/-- The type `ldapdb_rdatalist_t`: the list of buckets. A pointer to a bucket of
the list is its index. -/
abbrev ldapdb_rdatalist_t := List dns_rdatalist_t

/-- The BIND and ISC calls that `ldapdb_rdatalist_get` makes: the result of
creating the lexer, the parsers of class, type and TTL texts with the value
they store, the result of opening the lexer on the rdata text, the conversion
of the rdata text of a class and type into the target buffer, and the result
of closing the lexer. -/
structure RdataLib where
  isc_lex_create : isc_result_t
  dns_rdataclass_fromtext : String → isc_result_t × Nat
  dns_rdatatype_fromtext : String → isc_result_t × Nat
  dns_ttl_fromtext : String → isc_result_t × Nat
  isc_lex_openbuffer : String → isc_result_t
  dns_rdata_fromtext : Nat → Nat → String → isc_buffer_t → isc_result_t × isc_buffer_t
  isc_lex_close : isc_result_t

/-- The loop of `ldapdb_rdatalist_findrdatatype`, `i` being the index of the
bucket that `rdlist` points at: the walk stops at the first bucket whose type
is `rdtype`, or at the end of the list with NULL. -/
def ldapdb_rdatalist_findrdatatype_loop : List dns_rdatalist_t → Nat → Nat → Option Nat
  | [], _, _ => none
  | rdlist :: next, rdtype, i =>
    if rdlist.type ≠ rdtype then ldapdb_rdatalist_findrdatatype_loop next rdtype (i + 1)
    else some i

/-- The function `ldapdb_rdatalist_findrdatatype`. `rdlistp` is the value of
`*rdlistp` on entry, which is required to be NULL. The result is the returned
code, the value of `*rdlistp` on return, and the list on return. -/
def ldapdb_rdatalist_findrdatatype (rdatalist : ldapdb_rdatalist_t) (rdtype : Nat)
    (rdlistp : Option Nat) : Run (isc_result_t × Option Nat × ldapdb_rdatalist_t) :=
  match rdlistp with
  | some _ => Run.abort Check.REQUIRE
  | none =>
    let rdlist := ldapdb_rdatalist_findrdatatype_loop rdatalist rdtype 0
    Run.ret (if rdlist = none then ISC_R_NOTFOUND else ISC_R_SUCCESS, rdlist, rdatalist)

/-- The inner loop of `ldapdb_rdatalist_destroy`: every node of a bucket is
unlinked, and its bytes and the node itself are given back. -/
def ldapdb_rdatalist_destroy_rdata (mctx : isc_mem) : List dns_rdata_t → isc_mem
  | [] => mctx
  | _ :: next => ldapdb_rdatalist_destroy_rdata (isc_mem_put (isc_mem_put mctx)) next

/-- The outer loop of `ldapdb_rdatalist_destroy`: the nodes of every bucket are
freed and the bucket is unlinked and given back. -/
def ldapdb_rdatalist_destroy_loop (mctx : isc_mem) : List dns_rdatalist_t → isc_mem
  | [] => mctx
  | rdlist :: next =>
    ldapdb_rdatalist_destroy_loop
      (isc_mem_put (ldapdb_rdatalist_destroy_rdata mctx rdlist.rdata)) next

/-- The function `ldapdb_rdatalist_destroy`: the list is empty afterwards. -/
def ldapdb_rdatalist_destroy (mctx : isc_mem) (rdatalist : ldapdb_rdatalist_t) :
    isc_mem × ldapdb_rdatalist_t :=
  (ldapdb_rdatalist_destroy_loop mctx rdatalist, [])

/-- The texts of one record, as the loop of `ldapdb_rdatalist_get` sets them at
the start of a round. -/
structure RecordText where
  rdclass_text : String
  rdtype_text : String
  ttl_text : String
  rdata_text : String
  deriving DecidableEq, Repr

/-- What a round of the loop of `ldapdb_rdatalist_get` leaves: `result`,
`seen_error`, the memory context, the list and the local `rdlist`. -/
structure RoundState where
  result : isc_result_t
  seen_error : Bool
  mctx : isc_mem
  rdatalist : ldapdb_rdatalist_t
  rdlist : Option Nat
  deriving DecidableEq, Repr

/-- One round of the `for` loop of `ldapdb_rdatalist_get`, for the record texts
`record`: parse class (anything but `IN` fails an `INSIST`), type and TTL,
convert the rdata text into the target buffer laid over `targetmem`, obtain a
node and a block of exactly the used length and copy the used bytes, look up
the bucket of the type, create and append it when there is none, require its
TTL to be the new one when there is one (`INSIST`), and append the node. A
failure sets `seen_error`; the labels `for_cleanup1` to `for_cleanup3` give
back what the round obtained. -/
def ldapdb_rdatalist_get_round (lib : RdataLib) (record : RecordText) (mctx : isc_mem)
    (rdatalist : ldapdb_rdatalist_t) (rdlist : Option Nat) : Run RoundState :=
  let failed (result : isc_result_t) (mctx : isc_mem) : Run RoundState :=
    Run.ret { result := result, seen_error := true, mctx := mctx, rdatalist := rdatalist,
              rdlist := rdlist }
  let rdclass := lib.dns_rdataclass_fromtext record.rdclass_text
  if rdclass.1 ≠ ISC_R_SUCCESS then failed rdclass.1 mctx
  else if rdclass.2 ≠ dns_rdataclass_in then Run.abort Check.INSIST
  else
    let rdtype := lib.dns_rdatatype_fromtext record.rdtype_text
    if rdtype.1 ≠ ISC_R_SUCCESS then failed rdtype.1 mctx
    else
      let ttl := lib.dns_ttl_fromtext record.ttl_text
      if ttl.1 ≠ ISC_R_SUCCESS then failed ttl.1 mctx
      else if lib.isc_lex_openbuffer record.rdata_text ≠ ISC_R_SUCCESS then
        failed (lib.isc_lex_openbuffer record.rdata_text) mctx
      else
        let target := lib.dns_rdata_fromtext rdclass.2 rdtype.2 record.rdata_text
          { base := List.replicate MINTSIZ 0, used := 0 }
        if target.1 ≠ ISC_R_SUCCESS then failed target.1 mctx
        else if lib.isc_lex_close ≠ ISC_R_SUCCESS then Run.abort Check.INSIST
        else
          match isc_mem_get mctx with
          | (false, mctx) => failed ISC_R_NOMEMORY mctx
          | (true, mctx) =>
            match isc_mem_get mctx with
            | (false, mctx) => failed ISC_R_NOMEMORY (isc_mem_put mctx)
            | (true, mctx) =>
              let rdata : dns_rdata_t :=
                { data := target.2.base.take target.2.used, length := target.2.used,
                  rdclass := rdclass.2, type := rdtype.2 }
              match ldapdb_rdatalist_findrdatatype rdatalist rdtype.2 rdlist with
              | Run.abort check => Run.abort check
              | Run.ret (ISC_R_SUCCESS, some i, rdatalist) =>
                match rdatalist[i]? with
                | none => Run.abort Check.INSIST
                | some found =>
                  if found.ttl ≠ ttl.2 then Run.abort Check.INSIST
                  else
                    Run.ret
                      { result := ISC_R_SUCCESS, seen_error := false, mctx := mctx,
                        rdatalist :=
                          rdatalist.set i { found with rdata := found.rdata ++ [rdata] },
                        rdlist := some i }
              | Run.ret (_, _, rdatalist) =>
                match isc_mem_get mctx with
                | (false, mctx) => failed ISC_R_NOMEMORY (isc_mem_put (isc_mem_put mctx))
                | (true, mctx) =>
                  Run.ret
                    { result := ISC_R_SUCCESS, seen_error := false, mctx := mctx,
                      rdatalist := rdatalist ++
                        [{ rdclass := rdclass.2, type := rdtype.2, ttl := ttl.2,
                           rdata := [rdata] }],
                      rdlist := some rdatalist.length }

/-- The function `ldapdb_rdatalist_get` with the texts of its one round given
as `record`. `rdatalist` is what the caller's list holds on entry. The lexer
is created and `targetmem` obtained (a failure of either returns before the
list is touched), the list is initialised, the round runs with `rdlist`
NULL, the list is destroyed when the round has set `seen_error`, and the
`cleanup:` part gives `targetmem` back. -/
def ldapdb_rdatalist_get_record (lib : RdataLib) (record : RecordText) (mctx : isc_mem)
    (rdatalist : ldapdb_rdatalist_t) : Run (isc_result_t × isc_mem × ldapdb_rdatalist_t) :=
  if lib.isc_lex_create ≠ ISC_R_SUCCESS then Run.ret (lib.isc_lex_create, mctx, rdatalist)
  else
    match isc_mem_get mctx with
    | (false, mctx) => Run.ret (ISC_R_NOMEMORY, isc_mem_put mctx, rdatalist)
    | (true, mctx) =>
      match ldapdb_rdatalist_get_round lib record mctx [] none with
      | Run.abort check => Run.abort check
      | Run.ret round =>
        let kept :=
          if round.seen_error then ldapdb_rdatalist_destroy round.mctx round.rdatalist
          else (round.mctx, round.rdatalist)
        Run.ret (round.result, isc_mem_put kept.1, kept.2)

/-- The texts that the loop of `ldapdb_rdatalist_get` sets in its one round. -/
def fixed_record : RecordText :=
  { rdclass_text := "in", rdtype_text := "ns", ttl_text := "86400",
    rdata_text := "wolverine.englab.brq.redhat.com." }

/-- The function `ldapdb_rdatalist_get`: one round, for the texts written in the
source. -/
def ldapdb_rdatalist_get (lib : RdataLib) (mctx : isc_mem) (rdatalist : ldapdb_rdatalist_t) :
    Run (isc_result_t × isc_mem × ldapdb_rdatalist_t) :=
  ldapdb_rdatalist_get_record lib fixed_record mctx rdatalist

/-! ### A small library for examples -/

/-- The number that a text of decimal digits denotes, if it is one. -/
def decimal (text : String) : Option Nat :=
  if text.data = [] ∨ text.data.any (fun c => !c.isDigit) then none
  else some (text.data.foldl (fun n c => 10 * n + (c.toNat - '0'.toNat)) 0)

/-- The text of a name in wire format: the labels, each followed by a dot. -/
def wire_totext : Nat → List Nat → List Char
  | 0, _ => []
  | _, [] => []
  | fuel + 1, len :: rest =>
    if len = 0 then []
    else (rest.take len).map Char.ofNat ++ '.' :: wire_totext fuel (rest.drop len)

/-- A library for examples: the lexer calls succeed, the class `IN`, the types
`A` and `NS` and decimal TTLs are known in either case of letters, and the
rdata of an `NS` record is the wire format of its name, written at the used
end of the target buffer. -/
def sample_rdata_lib : RdataLib :=
  { isc_lex_create := ISC_R_SUCCESS
    dns_rdataclass_fromtext := fun text =>
      if strcasecmp_eq text "in" then (ISC_R_SUCCESS, dns_rdataclass_in)
      else (ISC_R_FAILURE, 0)
    dns_rdatatype_fromtext := fun text =>
      if strcasecmp_eq text "ns" then (ISC_R_SUCCESS, dns_rdatatype_ns)
      else if strcasecmp_eq text "a" then (ISC_R_SUCCESS, 1)
      else (ISC_R_FAILURE, 0)
    dns_ttl_fromtext := fun text =>
      match decimal text with
      | some ttl => (ISC_R_SUCCESS, ttl)
      | none => (ISC_R_FAILURE, 0)
    isc_lex_openbuffer := fun _ => ISC_R_SUCCESS
    dns_rdata_fromtext := fun _ rdtype text target =>
      if rdtype ≠ dns_rdatatype_ns then (ISC_R_FAILURE, target)
      else
        match simple_fromtext (String.mk (text.data.dropLast)) with
        | (ISC_R_SUCCESS, some wire) =>
          (ISC_R_SUCCESS,
            { base := target.base.take target.used ++ wire ++
                target.base.drop (target.used + wire.length),
              used := target.used + wire.length })
        | (result, _) => (result, target)
    isc_lex_close := ISC_R_SUCCESS }

/-- The texts of the example of the specification. -/
def example_record : RecordText :=
  { rdclass_text := "IN", rdtype_text := "NS", ttl_text := "86400",
    rdata_text := "host.example.org." }

/-- The wire format of `host.example.org.`. -/
def example_wire : List Nat :=
  [4, 104, 111, 115, 116, 7, 101, 120, 97, 109, 112, 108, 101, 3, 111, 114, 103, 0]

/-- The target buffer after the example library has converted
`host.example.org.` into a fresh buffer over `targetmem`. -/
def example_target : isc_buffer_t :=
  (sample_rdata_lib.dns_rdata_fromtext dns_rdataclass_in dns_rdatatype_ns "host.example.org."
    { base := List.replicate MINTSIZ 0, used := 0 }).2

/-- A list of two buckets, of types `A` and `NS`, both with TTL 3600. -/
def two_buckets : ldapdb_rdatalist_t :=
  [{ rdclass := 1, type := 1, ttl := 3600, rdata := [] },
   { rdclass := 1, type := 2, ttl := 3600, rdata := [] }]

end LdapHelper

namespace LdapHelper

open LdapConvert LdapConvert.isc_result_t

/-! ### Room for the callers in the scan -/

/-- Whether the caller is in the scan at position `p` or later. -/
def Caller.scansFrom (p : Nat) : Caller → Bool
  | Caller.scanning i => decide (p ≤ i)
  | _ => false

/-- Whether nobody holds the lock of the connection. -/
def isFree (ldap_inst : ldap_instance_t) : Bool :=
  ldap_inst.lock.isNone

/-- What holds of a pool in use besides `Sys.Inv`: no `RUNTIME_CHECK` has
failed, the connections that are not locked and the callers holding one add
up to the length of the list, and for every position `p` the callers in the
scan at `p` or later are at most as many as the connections at `p` or later
that are not locked. -/
def Sys.Room (s : Sys) : Prop :=
  s.aborted = false ∧
    s.db.conn_list.countP isFree + s.callers.countP Caller.isHolding =
      s.db.conn_list.length ∧
    ∀ p : Nat, s.callers.countP (Caller.scansFrom p) ≤ (s.db.conn_list.drop p).countP isFree

/-- Steps by which caller 0 of three checks out the first connection of
`two_pool` and caller 1, admitted by the semaphore, finds that one busy. -/
def two_scans : List (Nat × Op) :=
  [(0, Op.wait), (1, Op.wait), (0, Op.trylock), (1, Op.trylock)]

/-- The state after `two_scans`: caller 0 holds the first connection, caller 1
is in the scan at the second. -/
def two_pool_scanning : Sys :=
  { mctx := ⟨[], 3, 0⟩
    db := { two_pool with
            conn_semaphore := 0
            conn_list := [{ zero_instance with lock := some 0, handle := some 0, base := "cn=dns" },
                          { zero_instance with handle := some 1 }] }
    callers := [Caller.holding 0, Caller.scanning 1, Caller.idle]
    aborted := false }

end LdapHelper

namespace LdapHelper

open LdapConvert LdapConvert.isc_result_t

/-! ### Queries -/

/-- The library call `ldap_search_ext_s` as `ldap_query` uses it: from the
handle, the base, the scope, the filter, the attribute names and the flag
`attrsonly` it gives its return code and the message that it stores through the
result pointer. -/
abbrev SearchFn := Option Nat → String → Int → String → List String → Int → Int × Option LDAPMessage

/-- The constant `LDAP_SCOPE_SUBTREE`. -/
def LDAP_SCOPE_SUBTREE : Int := 2

/-- The function `ldap_query`, with `filter` the text that `str_vsprintf`
formats into the query string: the search is run on the handle and the base of
the connection, the message it stores becomes `result`, the return code is
dropped and the function returns `ISC_R_SUCCESS`. No other field is written. -/
def ldap_query (ldap_search_ext_s : SearchFn) (ldap_inst : ldap_instance_t) (scope : Int)
    (attrs : List String) (attrsonly : Int) (filter : String) :
    isc_result_t × ldap_instance_t :=
  let ldap_inst := { ldap_inst with query_string := filter }
  let ret := ldap_search_ext_s ldap_inst.handle ldap_inst.base scope ldap_inst.query_string
    attrs attrsonly
  (ISC_R_SUCCESS, { ldap_inst with result := ret.2 })

/-- A search that finds the one zone entry of `sample_result`. -/
def zone_search : SearchFn :=
  fun _ _ _ _ _ _ => (0, some sample_result)

/-- A pool of one connection, checked out by thread 0, whose query returned
`two_entries` and whose entry cursor stands at the first of them after one call
of `next_entry`. -/
def cursor_pool : ldap_db_t :=
  { conn_semaphore := 0
    conn_list := [(next_entry two_queried).2]
    host := "ldap://localhost", base := "cn=dns", connections := 1
    auth_method := ldap_auth_t.AUTH_NONE }

end LdapHelper

namespace LdapHelper

open LdapConvert LdapConvert.isc_result_t

/-! ### Sample data for the rounds of `ldapdb_rdatalist_get` -/

/-- Calls of which `isc_mutex_init` fails for the second connection. -/
def second_mutex_fails : InitCalls :=
  { all_succeed with
    isc_mutex_init := fun i => if i = 1 then ISC_R_FAILURE else ISC_R_SUCCESS }

end LdapHelper

/-! # Theorems -/

namespace LdapConvert

open isc_result_t

/-! ## `dn_to_text` -/

theorem count_rdns_from_eq (exploded : List String) (ret : Nat)
    (h : ret + exploded.length < UINT_RANGE) :
    count_rdns_from exploded ret = ret + exploded.length := by
  induction exploded generalizing ret with
  | nil => simp [count_rdns_from]
  | cons rdn rest ih =>
    simp only [List.length_cons] at h
    have hlt : ret + 1 < UINT_RANGE := by omega
    simp only [count_rdns_from, Nat.mod_eq_of_lt hlt, List.length_cons]
    rw [ih (ret + 1) (by omega)]
    omega

theorem count_rdns_eq (exploded : List String) (h : exploded.length < UINT_RANGE) :
    count_rdns exploded = exploded.length := by
  unfold count_rdns
  rw [count_rdns_from_eq exploded 0 (by omega)]
  omega

theorem dn_to_text_loop_eq (exploded : List String) (count i : Nat) (target : String) :
    dn_to_text_loop exploded count i target = target ++ dotted (exploded.take (count - i)) := by
  induction exploded generalizing i target with
  | nil => simp [dn_to_text_loop, dotted]
  | cons rdn rest ih =>
    by_cases hi : i < count
    · have hc : count - i = (count - (i + 1)) + 1 := by omega
      simp only [dn_to_text_loop, hi, if_true]
      rw [ih, hc, List.take_succ_cons]
      simp only [dotted, String.append_assoc]
    · have hc : count - i = 0 := by omega
      simp [dn_to_text_loop, hi, hc, dotted]

theorem dotted_length_pos (rdn : String) (rest : List String) :
    0 < (dotted (rdn :: rest)).length := by
  simp only [dotted, String.length_append]
  have : (".").length = 1 := by decide
  omega

theorem dn_to_text_write_eq (exploded : List String) (count : Nat) :
    dn_to_text_write exploded count =
      if exploded.take count = [] then "." else dotted (exploded.take count) := by
  unfold dn_to_text_write
  simp only [dn_to_text_loop_eq, Nat.sub_zero, String.empty_append]
  cases hk : exploded.take count with
  | nil => simp [dotted]
  | cons rdn rest =>
    have := dotted_length_pos rdn rest
    simp only [reduceCtorEq, if_false]
    rw [if_neg (by omega)]

/-- The check of root against target looks at the addresses only: whenever both
DNs explode and the root array lies above the target array, `dn_to_text` fails
and leaves the target string alone, whatever the counts are. -/
theorem dn_to_text_root_above (ldap_explode_dn : ExplodeFn) (addr_dn addr_root : Nat)
    (dn root target : String) (rdns rdns_root : List String)
    (hdn : ldap_explode_dn dn 1 = .array rdns)
    (hroot : ldap_explode_dn root 1 = .array rdns_root)
    (haddr : addr_dn < addr_root) :
    dn_to_text ldap_explode_dn addr_dn addr_root dn (some root) target =
      (ISC_R_FAILURE, target) := by
  simp [dn_to_text, explode_dn, hdn, hroot, haddr]

/-- When the root array does not lie above the target array and the root has
fewer components than the target, the text is the leading components of the
target that the root does not cover. -/
theorem dn_to_text_root_below (ldap_explode_dn : ExplodeFn) (addr_dn addr_root : Nat)
    (dn root target : String) (rdns rdns_root : List String)
    (hdn : ldap_explode_dn dn 1 = .array rdns)
    (hroot : ldap_explode_dn root 1 = .array rdns_root)
    (haddr : addr_root ≤ addr_dn)
    (hlt : rdns_root.length < rdns.length) (hn : rdns.length < UINT_RANGE) :
    dn_to_text ldap_explode_dn addr_dn addr_root dn (some root) target =
      (ISC_R_SUCCESS, dotted (rdns.take (rdns.length - rdns_root.length))) := by
  have hgt : ¬ addr_root > addr_dn := by omega
  have hcount : (rdns.length + UINT_RANGE - rdns_root.length) % UINT_RANGE =
      rdns.length - rdns_root.length := by
    have : rdns.length + UINT_RANGE - rdns_root.length =
        (rdns.length - rdns_root.length) + UINT_RANGE := by omega
    rw [this, Nat.add_mod_right, Nat.mod_eq_of_lt (by omega)]
  have hne : rdns.take (rdns.length - rdns_root.length) ≠ [] := by
    intro h
    have := congrArg List.length h
    simp only [List.length_take, List.length_nil] at this
    omega
  simp only [dn_to_text, explode_dn, hdn, hroot, hgt, if_false,
    count_rdns_eq rdns hn, count_rdns_eq rdns_root (by omega), hcount, dn_to_text_write_eq,
    if_neg hne]

/-- C4: without a root DN, a target DN that explodes into `n ≥ 1` components
(fewer than `2^32`, the range of the C counter) converts successfully to all
`n` components in their order, each followed by a dot. -/
theorem dn_to_text_no_root (ldap_explode_dn : ExplodeFn) (addr_dn addr_root : Nat)
    (dn target : String) (rdns : List String)
    (hdn : ldap_explode_dn dn 1 = .array rdns)
    (hpos : 1 ≤ rdns.length) (hn : rdns.length < UINT_RANGE) :
    dn_to_text ldap_explode_dn addr_dn addr_root dn none target =
      (ISC_R_SUCCESS, dotted rdns) := by
  have hne : rdns ≠ [] := by
    intro h
    simp [h] at hpos
  simp only [dn_to_text, explode_dn, hdn, count_rdns_eq rdns hn, dn_to_text_write_eq,
    List.take_length, if_neg hne]

theorem dn_to_text_no_root_witness :
    simple_explode_dn example_dn 1 =
        .array ["foo", "bar", "example.org", "dns", "example", "org"] ∧
      dn_to_text simple_explode_dn 100 200 example_dn none "" =
        (ISC_R_SUCCESS, dotted ["foo", "bar", "example.org", "dns", "example", "org"]) :=
  ⟨by decide, dn_to_text_no_root simple_explode_dn 100 200 example_dn ""
    ["foo", "bar", "example.org", "dns", "example", "org"] (by decide) (by decide) (by decide)⟩

/-- C1: on the example of the comment of `dn_to_text` the text is
`foo.bar.example.org.` when the root array is allocated below the target
array, but the call fails with `ISC_R_FAILURE` and writes no text when the
root array is allocated above it, although the root has three components and
the target six. -/
theorem dn_to_text_example_depends_on_addresses :
    dn_to_text simple_explode_dn 200 100 example_dn (some example_root) "" =
        (ISC_R_SUCCESS, "foo.bar.example.org.") ∧
      dn_to_text simple_explode_dn 100 200 example_dn (some example_root) "" =
        (ISC_R_FAILURE, "") := by
  decide

/-- C2: with the target `dc=org` (one component) and the root
`dc=example, dc=org` (two components), the root array allocated below the
target array, `dn_to_text` succeeds with the text `org.` and `dn_to_dnsname`
succeeds and produces a name. -/
theorem dn_to_text_longer_root_accepted :
    simple_explode_dn "dc=org" 1 = .array ["org"] ∧
      simple_explode_dn "dc=example, dc=org" 1 = .array ["example", "org"] ∧
      dn_to_text simple_explode_dn 200 100 "dc=org" (some "dc=example, dc=org") "" =
        (ISC_R_SUCCESS, "org.") ∧
      dn_to_dnsname simple_explode_dn simple_lib ISC_R_SUCCESS 200 100 "dc=org"
          (some "dc=example, dc=org") =
        { result := ISC_R_SUCCESS
          dup_source := some (TmpName.parsed [3, 111, 114, 103, 0])
          target := some (TmpName.parsed [3, 111, 114, 103, 0]) } := by
  decide

/-- C3: with target and root both `cn=dns, dc=example, dc=org`, the root array
allocated above the target array, `dn_to_text` fails with `ISC_R_FAILURE`
and the text `.` is not produced. -/
theorem dn_to_text_equal_counts_rejected :
    dn_to_text simple_explode_dn 100 200 example_root (some example_root) "" =
      (ISC_R_FAILURE, "") := by
  decide

/-- C5: two runs of `dn_to_text` on the same pair of DNs that differ only in
where the two exploded arrays are allocated can return different results. -/
theorem dn_to_text_not_address_independent :
    ¬ ∀ (addr_dn addr_root addr_dn2 addr_root2 : Nat),
      dn_to_text simple_explode_dn addr_dn addr_root example_dn (some example_root) "" =
        dn_to_text simple_explode_dn addr_dn2 addr_root2 example_dn (some example_root) "" := by
  intro h
  exact absurd (h 200 100 100 200) (by decide)

/-! ## `dn_to_dnsname` -/

/-- Whenever the result at `cleanup:` is not `ISC_R_FAILURE`, the duplication is
called and its result is what `dn_to_dnsname` returns. -/
theorem dn_to_dnsname_cleanup_dups (lib : DnsLib) (result : isc_result_t) (tmp_name : TmpName)
    (h : result ≠ ISC_R_FAILURE) :
    (dn_to_dnsname_cleanup lib result tmp_name).dup_source = some tmp_name ∧
      (dn_to_dnsname_cleanup lib result tmp_name).result =
        lib.dns_name_dupwithoffsets tmp_name := by
  simp [dn_to_dnsname_cleanup, h]

/-- When `str_new` fails, the uninitialised `tmp_name` is duplicated and the
result of the duplication is returned. -/
theorem dn_to_dnsname_str_new_fails (ldap_explode_dn : ExplodeFn) (lib : DnsLib)
    (addr_dn addr_root : Nat) (dn : String) (root_dn : Option String) :
    (dn_to_dnsname ldap_explode_dn lib ISC_R_NOMEMORY addr_dn addr_root dn root_dn).dup_source =
        some TmpName.uninitialised ∧
      (dn_to_dnsname ldap_explode_dn lib ISC_R_NOMEMORY addr_dn addr_root dn root_dn).result =
        lib.dns_name_dupwithoffsets TmpName.uninitialised := by
  simp [dn_to_dnsname, dn_to_dnsname_cleanup]

/-- When the text stage succeeds, the returned code is the result of the
duplication, whatever `dns_name_fromtext` reported. -/
theorem dn_to_dnsname_result_is_dup (ldap_explode_dn : ExplodeFn) (lib : DnsLib)
    (addr_dn addr_root : Nat) (dn str : String) (root_dn : Option String)
    (htext : dn_to_text ldap_explode_dn addr_dn addr_root dn root_dn "" = (ISC_R_SUCCESS, str)) :
    ∃ tmp_name,
      (dn_to_dnsname ldap_explode_dn lib ISC_R_SUCCESS addr_dn addr_root dn root_dn).result =
        lib.dns_name_dupwithoffsets tmp_name := by
  simp only [dn_to_dnsname, htext, dn_to_dnsname_cleanup]
  simp

/-- C6: when `str_new` fails with `ISC_R_NOMEMORY`, and likewise when the
library cannot explode the DN for lack of memory, `dn_to_dnsname` still calls
the duplication, on the uninitialised `tmp_name`, and returns its result,
here `ISC_R_SUCCESS`, not `ISC_R_NOMEMORY`. -/
theorem dn_to_dnsname_nomemory_still_duplicates :
    dn_to_dnsname simple_explode_dn simple_lib ISC_R_NOMEMORY 200 100 example_dn
          (some example_root) =
        { result := ISC_R_SUCCESS
          dup_source := some TmpName.uninitialised
          target := some TmpName.uninitialised } ∧
      dn_to_text (fun _ _ => ExplodeResult.null ENOMEM) 200 100 example_dn
          (some example_root) "" = (ISC_R_NOMEMORY, "") ∧
      dn_to_dnsname (fun _ _ => ExplodeResult.null ENOMEM) simple_lib ISC_R_SUCCESS 200 100
          example_dn (some example_root) =
        { result := ISC_R_SUCCESS
          dup_source := some TmpName.uninitialised
          target := some TmpName.uninitialised } := by
  decide

set_option maxRecDepth 1000000 in
/-- C7: for `long_dn` under the root `cn=dns` the text stage succeeds, the
parser refuses the text with `ISC_R_NOSPACE` (306 bytes of wire format), and
`dn_to_dnsname` returns `ISC_R_SUCCESS` with the empty name duplicated into the
target. -/
theorem dn_to_dnsname_too_long_succeeds :
    (dn_to_text simple_explode_dn 200 100 long_dn (some "cn=dns") "").1 = ISC_R_SUCCESS ∧
      (simple_lib.dns_name_fromtext (String.mk
        (dn_to_text simple_explode_dn 200 100 long_dn (some "cn=dns") "").2.data.dropLast)).1 =
        ISC_R_NOSPACE ∧
      dn_to_dnsname simple_explode_dn simple_lib ISC_R_SUCCESS 200 100 long_dn (some "cn=dns") =
        { result := ISC_R_SUCCESS
          dup_source := some TmpName.empty
          target := some TmpName.empty } := by
  decide

end LdapConvert

namespace LdapHelper

open LdapConvert LdapConvert.isc_result_t

/-! ## The cache across a checkout -/

theorem free_query_cache_empty (mctx : isc_mem) (inst : ldap_instance_t) :
    (free_query_cache mctx inst).2.ldap_entries = [] ∧
      (free_query_cache mctx inst).2.cache_active = false := by
  simp [free_query_cache]

theorem isc_mutex_trylock_success (self : Nat) (ldap_inst locked : ldap_instance_t)
    (h : isc_mutex_trylock self ldap_inst = (ISC_R_SUCCESS, locked)) :
    ldap_inst.lock = none ∧ locked = { ldap_inst with lock := some self } := by
  unfold isc_mutex_trylock at h
  split at h
  · next hl =>
    simp only [Prod.mk.injEq, true_and] at h
    exact ⟨hl, h.symm⟩
  · simp at h

theorem get_connection_scan_some (self : Nat) (conn_list : List ldap_instance_t) (k j : Nat)
    (locked : ldap_instance_t) (h : get_connection_scan self conn_list k = some (j, locked)) :
    k ≤ j ∧ ∃ ldap_inst, conn_list[j - k]? = some ldap_inst ∧ ldap_inst.lock = none ∧
      locked = { ldap_inst with lock := some self } := by
  induction conn_list generalizing k with
  | nil => simp [get_connection_scan] at h
  | cons ldap_inst next ih =>
    unfold get_connection_scan at h
    split at h
    · next locked0 hlock =>
      simp only [Option.some.injEq, Prod.mk.injEq] at h
      obtain ⟨hk, hl⟩ := h
      subst hk
      subst hl
      have := isc_mutex_trylock_success self ldap_inst locked0 hlock
      exact ⟨Nat.le_refl _, ldap_inst, by simp, this.1, this.2⟩
    · obtain ⟨hk, inst0, hget, hnone, hl⟩ := ih (k + 1) h
      refine ⟨by omega, inst0, ?_, hnone, hl⟩
      have : j - k = (j - (k + 1)) + 1 := by omega
      rw [this, List.getElem?_cons_succ]
      exact hget

/-- C9: whatever cache a connection held, after `put_connection` on it followed
by a `get_connection` that returns it, its entry list is empty and its cache
is marked inactive. -/
theorem put_then_get_cache_empty (mctx : isc_mem) (ldap_db db2 : ldap_db_t) (i self : Nat)
    (ldap_inst : ldap_instance_t)
    (hinst : ldap_db.conn_list[i]? = some ldap_inst)
    (hget : get_connection self (put_connection mctx ldap_db i).2 = some (Run.ret (i, db2))) :
    (db2.conn_list[i]?).map (fun c => (c.ldap_entries, c.cache_active)) =
      some ([], false) := by
  have hi : i < ldap_db.conn_list.length := by
    rcases List.getElem?_eq_some_iff.mp hinst with ⟨h, _⟩
    exact h
  simp only [put_connection, hinst, get_connection, semaphore_wait, semaphore_signal] at hget
  simp only [Nat.add_one_ne_zero, if_false] at hget
  split at hget
  · simp at hget
  · next j locked hscan =>
    simp only [Option.some.injEq, Run.ret.injEq, Prod.mk.injEq] at hget
    obtain ⟨hj, hdb⟩ := hget
    subst hj
    obtain ⟨_, inst0, hget0, _, hlocked⟩ := get_connection_scan_some _ _ _ _ _ hscan
    simp only [Nat.sub_zero, List.getElem?_set_self hi, Option.some.injEq] at hget0
    rw [← hdb, hlocked, ← hget0]
    simp [hi, get_connection_init, UNLOCK, put_connection_free, free_query_cache]

theorem put_then_get_cache_empty_witness :
    sample_pool.conn_list[0]? = some { sample_queried with ldap_entries := sample_cache } ∧
      get_connection 7 (put_connection ⟨[], 4, 0⟩ sample_pool 0).2 =
        some (Run.ret (0, { sample_pool with
          conn_list := [{ zero_instance with lock := some 7, handle := some 0,
                                             base := "cn=dns" }] })) ∧
      ((({ sample_pool with
          conn_list := [{ zero_instance with lock := some 7, handle := some 0,
                                             base := "cn=dns" }] } : ldap_db_t).conn_list[0]?).map
        (fun c => (c.ldap_entries, c.cache_active))) = some ([], false) :=
  ⟨by decide, by decide,
    put_then_get_cache_empty ⟨[], 4, 0⟩ sample_pool
      { sample_pool with
        conn_list := [{ zero_instance with lock := some 7, handle := some 0, base := "cn=dns" }] }
      0 7 { sample_queried with ldap_entries := sample_cache } (by decide) (by decide)⟩

/-! ## `fill_cache_if_empty` -/

theorem cache_query_results_loop_inactive (mctx : isc_mem) (inst : ldap_instance_t)
    (res : LDAPMessage) (h : inst.cache_active = false) :
    (cache_query_results_loop mctx inst res).2.2.cache_active = false := by
  induction res generalizing mctx inst with
  | nil => simpa [cache_query_results_loop] using h
  | cons e next ih =>
    unfold cache_query_results_loop
    split
    · simp [free_query_cache]
    · split
      · exact ih _ _ h
      · simp [free_query_cache]

/-- The flag `cache_active` is still clear after a fill, so a second call of
`fill_cache_if_empty` on a cache that the first call populated runs into the
`REQUIRE` of `cache_query_results` that the entry list be empty. -/
theorem fill_cache_if_empty_twice (mctx mctx1 : isc_mem) (inst inst1 : ldap_instance_t)
    (result : isc_result_t)
    (hinactive : inst.cache_active = false)
    (hfirst : fill_cache_if_empty mctx inst = Run.ret (result, mctx1, inst1))
    (hpopulated : inst1.ldap_entries ≠ []) :
    fill_cache_if_empty mctx1 inst1 = Run.abort Check.REQUIRE := by
  have h1 : inst1.cache_active = false := by
    simp only [fill_cache_if_empty, hinactive, Bool.false_eq_true, if_false,
      cache_query_results] at hfirst
    split at hfirst
    · simp at hfirst
    · split at hfirst
      · simp at hfirst
      · next res hres =>
        simp only [hinactive, Bool.false_eq_true, if_false, Run.ret.injEq] at hfirst
        have := cache_query_results_loop_inactive mctx
          { inst with ldap_entries := [], cache_active := false } res rfl
        rw [hfirst] at this
        exact this
  simp [fill_cache_if_empty, h1, cache_query_results, hpopulated]

/-- C10: on `sample_queried` the first call of `fill_cache_if_empty` succeeds
and populates the cache with one entry, leaving `cache_active` clear; the second
call fails the `REQUIRE` of `cache_query_results` instead of returning success.
-/
theorem fill_cache_if_empty_second_call_aborts :
    fill_cache_if_empty ⟨[], 0, 0⟩ sample_queried =
        Run.ret (ISC_R_SUCCESS, ⟨[], 3, 0⟩, { sample_queried with ldap_entries := sample_cache }) ∧
      fill_cache_if_empty ⟨[], 3, 0⟩ { sample_queried with ldap_entries := sample_cache } =
        Run.abort Check.REQUIRE := by
  decide

end LdapHelper

namespace LdapHelper

open LdapConvert LdapConvert.isc_result_t

/-! ## The pool under concurrent callers -/

theorem countP_set_of_getElem? {α : Type} (p : α → Bool) (l : List α) (t : Nat) (c new : α)
    (h : l[t]? = some c) :
    (l.set t new).countP p + (if p c then 1 else 0) =
      l.countP p + (if p new then 1 else 0) := by
  obtain ⟨ht, hc⟩ := List.getElem?_eq_some_iff.mp h
  have hle := List.boole_getElem_le_countP p l t ht
  rw [List.countP_set p l t new ht, hc]
  rw [hc] at hle
  omega

/-- The steps that a caller can take, case by case. -/
theorem Sys.step_cases (s s' : Sys) (t : Nat) (op : Op) (hs : s.step t op = some s') :
    s.aborted = false ∧
    ((op = Op.wait ∧ s.callers[t]? = some Caller.idle ∧ 0 < s.db.conn_semaphore ∧
        s' = { s with db := { s.db with conn_semaphore := s.db.conn_semaphore - 1 }
                      callers := s.callers.set t (Caller.scanning 0) }) ∨
      (∃ i, op = Op.trylock ∧ s.callers[t]? = some (Caller.scanning i) ∧
        s.db.conn_list[i]? = none ∧ s' = { s with aborted := true }) ∨
      (∃ i inst, op = Op.trylock ∧ s.callers[t]? = some (Caller.scanning i) ∧
        s.db.conn_list[i]? = some inst ∧ inst.lock = none ∧
        s' = { s with
               db := { s.db with
                       conn_list := s.db.conn_list.set i
                         (get_connection_init s.db { inst with lock := some t }) }
               callers := s.callers.set t (Caller.holding i) }) ∨
      (∃ i inst, op = Op.trylock ∧ s.callers[t]? = some (Caller.scanning i) ∧
        s.db.conn_list[i]? = some inst ∧ inst.lock ≠ none ∧
        s' = { s with callers := s.callers.set t (Caller.scanning (i + 1)) }) ∨
      (∃ i inst mctx inst', (∃ f, op = Op.use f) ∧ s.callers[t]? = some (Caller.holding i) ∧
        s.db.conn_list[i]? = some inst ∧ inst'.lock = inst.lock ∧
        s' = { s with mctx := mctx
                      db := { s.db with conn_list := s.db.conn_list.set i inst' } }) ∨
      (∃ i inst, op = Op.unlock ∧ s.callers[t]? = some (Caller.holding i) ∧
        s.db.conn_list[i]? = some inst ∧
        s' = { s with
               mctx := (put_connection_free s.mctx inst).1
               db := { s.db with
                       conn_list := s.db.conn_list.set i
                         (UNLOCK (put_connection_free s.mctx inst).2) }
               callers := s.callers.set t Caller.signalling }) ∨
      (op = Op.signal ∧ s.callers[t]? = some Caller.signalling ∧
        s' = { s with db := { s.db with conn_semaphore := s.db.conn_semaphore + 1 }
                      callers := s.callers.set t Caller.idle })) := by
  unfold Sys.step at hs
  split at hs
  · simp at hs
  · next hab =>
    refine ⟨by simpa using hab, ?_⟩
    split at hs
    · next hc =>
      left
      by_cases hsem : s.db.conn_semaphore = 0
      · simp [semaphore_wait, hsem] at hs
      · simp only [semaphore_wait, hsem, if_false, Option.some.injEq] at hs
        exact ⟨rfl, hc, by omega, hs.symm⟩
    · next i hc =>
      right
      split at hs
      · next hnone =>
        left
        simp only [Option.some.injEq] at hs
        exact ⟨i, rfl, hc, hnone, hs.symm⟩
      · next inst hinst =>
        right
        split at hs
        · next locked hlock =>
          left
          obtain ⟨hl, hlocked⟩ := isc_mutex_trylock_success t inst locked hlock
          simp only [Option.some.injEq] at hs
          exact ⟨i, inst, rfl, hc, hinst, hl, by rw [← hs, hlocked]⟩
        · next hfail =>
          right
          left
          simp only [Option.some.injEq] at hs
          refine ⟨i, inst, rfl, hc, hinst, ?_, hs.symm⟩
          intro hl
          exact hfail { inst with lock := some t } (by simp [isc_mutex_trylock, hl])
    · next i f hc =>
      right; right; right; right; left
      split at hs
      · simp at hs
      · next inst hinst =>
        simp only [Option.some.injEq] at hs
        exact ⟨i, inst, (f (s.mctx, inst)).1, { (f (s.mctx, inst)).2 with lock := inst.lock },
          ⟨f, rfl⟩, hc, hinst, rfl, hs.symm⟩
    · next i hc =>
      right; right; right; right; right; left
      split at hs
      · simp at hs
      · next inst hinst =>
        simp only [Option.some.injEq] at hs
        exact ⟨i, inst, rfl, hc, hinst, hs.symm⟩
    · next hc =>
      right; right; right; right; right; right
      simp only [Option.some.injEq] at hs
      exact ⟨rfl, hc, hs.symm⟩
    · simp at hs

theorem Sys.step_inv (n : Nat) (s s' : Sys) (t : Nat) (op : Op) (h : s.Inv n)
    (hs : s.step t op = some s') : s'.Inv n := by
  obtain ⟨hlen, hsem, hheld⟩ := h
  obtain ⟨_, hcase⟩ := Sys.step_cases s s' t op hs
  rcases hcase with ⟨_, hc, hpos, rfl⟩ | ⟨i, _, hc, hnone, rfl⟩ |
    ⟨i, inst, _, hc, hinst, hl, rfl⟩ | ⟨i, inst, _, hc, hinst, hl, rfl⟩ |
    ⟨i, inst, mctx, inst', _, hc, hinst, hl, rfl⟩ | ⟨i, inst, _, hc, hinst, rfl⟩ |
    ⟨_, hc, rfl⟩
  · refine ⟨hlen, ?_, ?_⟩
    · have := countP_set_of_getElem? Caller.isBusy s.callers t _ (Caller.scanning 0) hc
      simp only [Caller.isBusy, Bool.false_eq_true, if_false, if_true] at this
      simp only
      omega
    · intro t' i' ht'
      simp only [List.getElem?_set] at ht'
      split at ht'
      · split at ht' <;> simp at ht'
      · exact hheld t' i' ht'
  · exact ⟨hlen, hsem, hheld⟩
  · have hi : i < s.db.conn_list.length := (List.getElem?_eq_some_iff.mp hinst).1
    refine ⟨by simpa using hlen, ?_, ?_⟩
    · have := countP_set_of_getElem? Caller.isBusy s.callers t _ (Caller.holding i) hc
      simp only [Caller.isBusy, if_true] at this
      simp only
      omega
    · intro t' i' ht'
      simp only [List.getElem?_set] at ht'
      simp only [List.getElem?_set]
      split at ht'
      · next htt =>
        subst htt
        split at ht'
        · simp only [Option.some.injEq, Caller.holding.injEq] at ht'
          subst ht'
          simp [hi, get_connection_init]
        · simp at ht'
      · next htt =>
        have := hheld t' i' ht'
        split
        · next hii =>
          subst hii
          simp [hinst, hl] at this
        · exact this
  · refine ⟨hlen, ?_, ?_⟩
    · have := countP_set_of_getElem? Caller.isBusy s.callers t _ (Caller.scanning (i + 1)) hc
      simp only [Caller.isBusy, if_true] at this
      simp only
      omega
    · intro t' i' ht'
      simp only [List.getElem?_set] at ht'
      split at ht'
      · split at ht' <;> simp at ht'
      · exact hheld t' i' ht'
  · have hi : i < s.db.conn_list.length := (List.getElem?_eq_some_iff.mp hinst).1
    refine ⟨by simpa using hlen, hsem, ?_⟩
    intro t' i' ht'
    have := hheld t' i' ht'
    simp only [List.getElem?_set]
    split
    · next hii =>
      subst hii
      simp only [hinst, Option.map_some', Option.some.injEq] at this
      simp [hi, hl, this]
    · exact this
  · have hi : i < s.db.conn_list.length := (List.getElem?_eq_some_iff.mp hinst).1
    refine ⟨by simpa using hlen, ?_, ?_⟩
    · have := countP_set_of_getElem? Caller.isBusy s.callers t _ Caller.signalling hc
      simp only [Caller.isBusy, if_true] at this
      simp only
      omega
    · intro t' i' ht'
      simp only [List.getElem?_set] at ht'
      split at ht'
      · split at ht' <;> simp at ht'
      · next htt =>
        have h1 := hheld t' i' ht'
        simp only [List.getElem?_set]
        split
        · next hii =>
          subst hii
          have h2 := hheld t i hc
          rw [h1] at h2
          simp only [Option.some.injEq] at h2
          exact absurd h2.symm htt
        · exact h1
  · refine ⟨hlen, ?_, ?_⟩
    · have := countP_set_of_getElem? Caller.isBusy s.callers t _ Caller.idle hc
      simp only [Caller.isBusy, if_true, Bool.false_eq_true, if_false] at this
      simp only
      omega
    · intro t' i' ht'
      simp only [List.getElem?_set] at ht'
      split at ht'
      · split at ht' <;> simp at ht'
      · exact hheld t' i' ht'

theorem Sys.run_inv (n : Nat) (acts : List (Nat × Op)) (s s' : Sys) (h : s.Inv n)
    (hrun : s.run acts = some s') : s'.Inv n := by
  induction acts generalizing s with
  | nil =>
    simp only [Sys.run, Option.some.injEq] at hrun
    exact hrun ▸ h
  | cons a more ih =>
    obtain ⟨t, op⟩ := a
    simp only [Sys.run] at hrun
    split at hrun
    · simp at hrun
    · next s1 hstep => exact ih s1 (Sys.step_inv n s s1 t op h hstep) hrun

theorem countP_lt_of_getElem? {α : Type} (p q : α → Bool) (l : List α) (t : Nat) (c : α)
    (hpq : ∀ x, p x = true → q x = true) (h : l[t]? = some c) (hq : q c = true)
    (hp : p c = false) : l.countP p < l.countP q := by
  induction l generalizing t with
  | nil => simp at h
  | cons x rest ih =>
    have hmono : rest.countP p ≤ rest.countP q :=
      List.countP_mono_left fun y _ hy => hpq y hy
    cases t with
    | zero =>
      simp only [List.getElem?_cons_zero, Option.some.injEq] at h
      subst h
      simp only [List.countP_cons, hq, hp, if_true, Bool.false_eq_true, if_false]
      omega
    | succ t =>
      simp only [List.getElem?_cons_succ] at h
      have := ih t h
      have hx := hpq x
      cases hpx : p x <;> cases hqx : q x <;>
        simp [List.countP_cons, hpx, hqx] at hx ⊢ <;> omega

theorem Sys.full_of_all_checked_out (n : Nat) (s : Sys) (h : s.Inv n)
    (hall : s.checked_out = n) : s.Full := by
  obtain ⟨_, hsem, _⟩ := h
  have hpq : ∀ x, Caller.isHolding x = true → Caller.isBusy x = true := by
    intro x hx
    cases x <;> simp_all [Caller.isHolding, Caller.isBusy]
  have hmono : s.callers.countP Caller.isHolding ≤ s.callers.countP Caller.isBusy :=
    List.countP_mono_left fun y _ hy => hpq y hy
  unfold Sys.checked_out at hall
  refine ⟨by omega, ?_⟩
  intro t i hc
  have := countP_lt_of_getElem? Caller.isHolding Caller.isBusy s.callers t _ hpq hc rfl rfl
  omega

theorem Sys.step_full (s s' : Sys) (t : Nat) (op : Op) (hfull : s.Full)
    (hs : s.step t op = some s') (hop : op.isSignal = false) :
    s'.Full ∧ ∀ t' i : Nat, s'.callers[t']? = some (Caller.holding i) →
      s.callers[t']? = some (Caller.holding i) := by
  obtain ⟨hzero, hscan⟩ := hfull
  obtain ⟨_, hcase⟩ := Sys.step_cases s s' t op hs
  rcases hcase with ⟨_, hc, hpos, rfl⟩ | ⟨i, _, hc, hnone, rfl⟩ |
    ⟨i, inst, _, hc, hinst, hl, rfl⟩ | ⟨i, inst, _, hc, hinst, hl, rfl⟩ |
    ⟨i, inst, mctx, inst', _, hc, hinst, hl, rfl⟩ | ⟨i, inst, _, hc, hinst, rfl⟩ |
    ⟨hsig, hc, rfl⟩
  · omega
  · exact absurd hc (hscan t i)
  · exact absurd hc (hscan t i)
  · exact absurd hc (hscan t i)
  · exact ⟨⟨hzero, hscan⟩, fun _ _ h => h⟩
  · refine ⟨⟨hzero, ?_⟩, ?_⟩
    · intro t' i' ht'
      simp only [List.getElem?_set] at ht'
      split at ht'
      · split at ht' <;> simp at ht'
      · exact hscan t' i' ht'
    · intro t' i' ht'
      simp only [List.getElem?_set] at ht'
      split at ht'
      · split at ht' <;> simp at ht'
      · exact ht'
  · subst hsig
    simp [Op.isSignal] at hop

theorem Sys.run_full (acts : List (Nat × Op)) (s s' : Sys) (hfull : s.Full)
    (hrun : s.run acts = some s') (hquiet : ∀ a ∈ acts, a.2.isSignal = false) :
    ∀ t i : Nat, s'.callers[t]? = some (Caller.holding i) →
      s.callers[t]? = some (Caller.holding i) := by
  induction acts generalizing s with
  | nil =>
    simp only [Sys.run, Option.some.injEq] at hrun
    subst hrun
    exact fun _ _ h => h
  | cons a more ih =>
    obtain ⟨t, op⟩ := a
    simp only [Sys.run] at hrun
    split at hrun
    · simp at hrun
    · next s1 hstep =>
      obtain ⟨hfull1, hsub⟩ := Sys.step_full s s1 t op hfull hstep
        (hquiet (t, op) (List.mem_cons_self _ _))
      intro t' i' ht'
      exact hsub t' i' (ih s1 hfull1 hrun (fun a ha => hquiet a (List.mem_cons_of_mem _ ha)) t' i' ht')

/-! ### The cache of a connection that is not checked out -/

theorem Sys.step_clean (n : Nat) (s s' : Sys) (t : Nat) (op : Op) (h : s.Inv n)
    (hclean : s.Clean) (hs : s.step t op = some s') : s'.Clean := by
  obtain ⟨_, _, hheld⟩ := h
  obtain ⟨_, hcase⟩ := Sys.step_cases s s' t op hs
  rcases hcase with ⟨_, hc, hpos, rfl⟩ | ⟨i, _, hc, hnone, rfl⟩ |
    ⟨i, inst, _, hc, hinst, hl, rfl⟩ | ⟨i, inst, _, hc, hinst, hl, rfl⟩ |
    ⟨i, inst, mctx, inst', _, hc, hinst, hl, rfl⟩ | ⟨i, inst, _, hc, hinst, rfl⟩ |
    ⟨_, hc, rfl⟩
  · exact hclean
  · exact hclean
  · intro j c hj hlock
    simp only [List.getElem?_set] at hj
    split at hj
    · split at hj
      · simp only [Option.some.injEq] at hj
        subst hj
        simp [get_connection_init] at hlock
      · simp at hj
    · exact hclean j c hj hlock
  · exact hclean
  · intro j c hj hlock
    simp only [List.getElem?_set] at hj
    split at hj
    · split at hj
      · simp only [Option.some.injEq] at hj
        subst hj
        have := hheld t i hc
        simp [hinst, ← hl, hlock] at this
      · simp at hj
    · exact hclean j c hj hlock
  · intro j c hj hlock
    simp only [List.getElem?_set] at hj
    split at hj
    · split at hj
      · simp only [Option.some.injEq] at hj
        subst hj
        simp [UNLOCK, put_connection_free, free_query_cache]
      · simp at hj
    · exact hclean j c hj hlock
  · exact hclean

theorem Sys.run_clean (n : Nat) (acts : List (Nat × Op)) (s s' : Sys) (h : s.Inv n)
    (hclean : s.Clean) (hrun : s.run acts = some s') : s'.Clean := by
  induction acts generalizing s with
  | nil =>
    simp only [Sys.run, Option.some.injEq] at hrun
    exact hrun ▸ hclean
  | cons a more ih =>
    obtain ⟨t, op⟩ := a
    simp only [Sys.run] at hrun
    split at hrun
    · simp at hrun
    · next s1 hstep =>
      exact ih s1 (Sys.step_inv n s s1 t op h hstep) (Sys.step_clean n s s1 t op h hclean hstep)
        hrun

/-- Whenever a caller comes to hold a connection, by the round of the scan that
takes its lock, the connection has an empty entry list and an inactive
cache, whatever its earlier holders left in it. -/
theorem Sys.acquired_cache_empty (s s' : Sys) (t i : Nat) (hclean : s.Clean)
    (hs : s.step t Op.trylock = some s')
    (hnow : s'.callers[t]? = some (Caller.holding i)) :
    (s'.db.conn_list[i]?).map (fun c => (c.lock, c.ldap_entries, c.cache_active)) =
      some (some t, [], false) := by
  obtain ⟨_, hcase⟩ := Sys.step_cases s s' t Op.trylock hs
  rcases hcase with ⟨hop, _⟩ | ⟨j, _, hc, hnone, rfl⟩ |
    ⟨j, inst, _, hc, hinst, hl, rfl⟩ | ⟨j, inst, _, hc, hinst, hl, rfl⟩ |
    ⟨_, _, _, _, ⟨_, hop⟩, _⟩ | ⟨_, _, hop, _⟩ | ⟨hop, _⟩
  · simp at hop
  · rw [hc] at hnow
    simp at hnow
  · have ht := (List.getElem?_eq_some_iff.mp hc).1
    have hj := (List.getElem?_eq_some_iff.mp hinst).1
    simp only [List.getElem?_set_self ht, Option.some.injEq, Caller.holding.injEq] at hnow
    subst hnow
    have := hclean j inst hinst hl
    simp [List.getElem?_set_self hj, get_connection_init, this.2]
  · have ht := (List.getElem?_eq_some_iff.mp hc).1
    simp [List.getElem?_set, ht] at hnow
  · simp at hop
  · simp at hop
  · simp at hop

/-! ### The pool that `new_ldap_db` constructs -/

theorem new_ldap_instance_success (calls : InitCalls) (i : Nat) (mctx mctx1 : isc_mem)
    (created : Option ldap_instance_t) (freed : Bool)
    (h : new_ldap_instance calls i mctx = (ISC_R_SUCCESS, mctx1, created, freed)) :
    created = some zero_instance := by
  unfold new_ldap_instance at h
  split at h
  · simp at h
  · split at h
    · next hne =>
      simp only [Prod.mk.injEq] at h
      exact absurd h.1 hne
    · split at h
      · next hne =>
        simp only [Prod.mk.injEq] at h
        exact absurd h.1 hne
      · split at h
        · next hne =>
          simp only [Prod.mk.injEq] at h
          exact absurd h.1 hne
        · simp only [Prod.mk.injEq, true_and] at h
          exact h.2.1.symm

theorem ldap_connect_keeps (calls : InitCalls) (auth_method : ldap_auth_t) (i : Nat)
    (ldap_inst connected : ldap_instance_t) (result : isc_result_t)
    (h : ldap_connect calls auth_method i ldap_inst = Run.ret (result, connected)) :
    connected = ldap_inst ∨ connected = { ldap_inst with handle := some i } := by
  unfold ldap_connect at h
  split at h
  · simp only [Run.ret.injEq, Prod.mk.injEq] at h
    exact Or.inl h.2.symm
  · split at h
    · split at h
      · simp only [Run.ret.injEq, Prod.mk.injEq] at h
        exact Or.inl h.2.symm
      · simp only [Run.ret.injEq, Prod.mk.injEq] at h
        exact Or.inr h.2.symm
    · simp at h

/-- A connection as `new_ldap_db` creates it: not locked, with an empty entry
list and an inactive cache. -/
theorem fresh_of_connect (calls : InitCalls) (auth_method : ldap_auth_t) (i : Nat)
    (connected : ldap_instance_t) (result : isc_result_t)
    (h : ldap_connect calls auth_method i zero_instance = Run.ret (result, connected)) :
    connected.lock = none ∧ connected.ldap_entries = [] ∧ connected.cache_active = false := by
  rcases ldap_connect_keeps calls auth_method i zero_instance connected result h with hc | hc <;>
    rw [hc] <;> exact ⟨rfl, rfl, rfl⟩

theorem new_ldap_db_loop_success (calls : InitCalls) (todo i : Nat) (mctx mctx1 : isc_mem)
    (ldap_db db1 : ldap_db_t) (freed : Bool)
    (h : new_ldap_db_loop calls todo i mctx ldap_db =
      Run.ret (ISC_R_SUCCESS, mctx1, db1, freed))
    (hfresh : ∀ c ∈ ldap_db.conn_list,
      c.lock = none ∧ c.ldap_entries = [] ∧ c.cache_active = false) :
    db1.conn_semaphore = ldap_db.conn_semaphore ∧ db1.connections = ldap_db.connections ∧
      db1.conn_list.length = ldap_db.conn_list.length + todo ∧
      ∀ c ∈ db1.conn_list, c.lock = none ∧ c.ldap_entries = [] ∧ c.cache_active = false := by
  induction todo generalizing i mctx ldap_db with
  | zero =>
    simp only [new_ldap_db_loop, Run.ret.injEq, Prod.mk.injEq, true_and] at h
    obtain ⟨_, rfl, _⟩ := h
    exact ⟨rfl, rfl, rfl, hfresh⟩
  | succ todo ih =>
    unfold new_ldap_db_loop at h
    split at h
    · next mctx2 ldap_inst freed2 hnew =>
      split at h
      · simp at h
      · next r connected hconn =>
        have hzero := new_ldap_instance_success calls i mctx mctx2 _ freed2 hnew
        simp only [Option.some.injEq] at hzero
        subst hzero
        obtain ⟨h1, h2, h3, h4⟩ := ih (i + 1) mctx2 _ h (by
          intro c hc
          simp only [List.mem_append, List.mem_singleton] at hc
          rcases hc with hc | hc
          · exact hfresh c hc
          · rw [hc]
            exact fresh_of_connect calls _ i connected r hconn)
        refine ⟨h1, h2, ?_, h4⟩
        rw [h3]
        simp only [List.length_append, List.length_singleton]
        omega
    · next r mctx2 created freed2 hne hnew =>
      simp only [Run.ret.injEq, Prod.mk.injEq] at h
      obtain ⟨hr, _, _⟩ := h
      subst hr
      exact absurd (new_ldap_instance_success calls i mctx mctx2 created freed2 hnew)
        (fun hc => hne zero_instance rfl hc)

theorem new_ldap_db_success (calls : InitCalls) (host base : String) (connections : Nat)
    (mctx0 mctx : isc_mem) (ldap_db : ldap_db_t)
    (h : new_ldap_db calls host base connections mctx0 =
      Run.ret (ISC_R_SUCCESS, mctx, some ldap_db)) :
    ldap_db.conn_semaphore = connections ∧ ldap_db.connections = connections ∧
      ldap_db.conn_list.length = connections ∧ 1 ≤ connections ∧
      ∀ c ∈ ldap_db.conn_list, c.lock = none ∧ c.ldap_entries = [] ∧ c.cache_active = false := by
  unfold new_ldap_db at h
  split at h
  · simp at h
  · split at h
    · simp at h
    · split at h
      · simp at h
      · split at h
        · simp at h
        · simp only at h
          split at h
          · simp at h
          · next hge =>
            split at h
            · simp at h
            · split at h
              · simp at h
              · next mctx2 db2 freed hloop =>
                simp only [Run.ret.injEq, Prod.mk.injEq, Option.some.injEq, true_and] at h
                obtain ⟨_, rfl⟩ := h
                obtain ⟨h1, h2, h3, h4⟩ := new_ldap_db_loop_success calls connections 0 _ _ _ _
                  freed hloop (by simp)
                refine ⟨h1, h2, ?_, by omega, h4⟩
                simpa using h3
              · simp at h
              · simp at h

theorem Sys.start_clean (mctx : isc_mem) (ldap_db : ldap_db_t) (threads : Nat)
    (hfresh : ∀ c ∈ ldap_db.conn_list,
      c.lock = none ∧ c.ldap_entries = [] ∧ c.cache_active = false) :
    (Sys.start mctx ldap_db threads).Clean := by
  intro i c hc _
  exact (hfresh c (List.getElem?_mem hc)).2

theorem Sys.start_inv (mctx : isc_mem) (ldap_db : ldap_db_t) (threads n : Nat)
    (hsem : ldap_db.conn_semaphore = n) (hlen : ldap_db.conn_list.length = n) :
    (Sys.start mctx ldap_db threads).Inv n := by
  refine ⟨hlen, ?_, ?_⟩
  · simp only [Sys.start, List.countP_replicate, Caller.isBusy, Bool.false_eq_true, if_false]
    omega
  · intro t i ht
    simp only [Sys.start, List.getElem?_replicate] at ht
    split at ht <;> simp at ht

/-- C8: in every state that callers reach from a pool that `new_ldap_db` has
constructed with `connections` connections, by steps of `get_connection` and
`put_connection` in any interleaving, the number of callers holding a
connection is at most `connections`, no two callers hold the same
connection, and when `connections` callers hold one the semaphore blocks and
no further caller comes to hold a connection before a `semaphore_signal` of
some `put_connection`. -/
theorem pool_checkouts_bounded (calls : InitCalls) (host base : String) (connections : Nat)
    (mctx0 mctx : isc_mem) (ldap_db : ldap_db_t) (threads : Nat) (acts : List (Nat × Op))
    (s : Sys)
    (hnew : new_ldap_db calls host base connections mctx0 =
      Run.ret (ISC_R_SUCCESS, mctx, some ldap_db))
    (hrun : (Sys.start mctx ldap_db threads).run acts = some s) :
    s.checked_out ≤ connections ∧
      (∀ t t' i : Nat, s.callers[t]? = some (Caller.holding i) →
        s.callers[t']? = some (Caller.holding i) → t = t') ∧
      (s.checked_out = connections →
        semaphore_wait s.db.conn_semaphore = none ∧
        ∀ (more : List (Nat × Op)) (s' : Sys), s.run more = some s' →
          (∀ a ∈ more, a.2.isSignal = false) →
          ∀ t i : Nat, s'.callers[t]? = some (Caller.holding i) →
            s.callers[t]? = some (Caller.holding i)) := by
  obtain ⟨hsem, _, hlen, _, _⟩ := new_ldap_db_success calls host base connections mctx0 mctx
    ldap_db hnew
  have hinv := Sys.run_inv connections acts _ s
    (Sys.start_inv mctx ldap_db threads connections hsem hlen) hrun
  refine ⟨?_, ?_, ?_⟩
  · obtain ⟨_, hs, _⟩ := hinv
    have hpq : ∀ x ∈ s.callers, Caller.isHolding x = true → Caller.isBusy x = true := by
      intro x _ hx
      cases x <;> simp_all [Caller.isHolding, Caller.isBusy]
    have := List.countP_mono_left hpq
    unfold Sys.checked_out
    omega
  · intro t t' i ht ht'
    obtain ⟨_, _, hheld⟩ := hinv
    have h1 := hheld t i ht
    have h2 := hheld t' i ht'
    rw [h1] at h2
    simpa using h2
  · intro hall
    have hfull := Sys.full_of_all_checked_out connections s hinv hall
    refine ⟨by simp [semaphore_wait, hfull.1], ?_⟩
    intro more s' hmore hquiet
    exact Sys.run_full more s s' hfull hmore hquiet


/-- In every state that callers reach from a pool that `new_ldap_db` has
constructed, the round of the scan by which a caller comes to hold a
connection leaves that connection locked by the caller, with an empty entry
list and an inactive cache. -/
theorem pool_acquired_cache_empty (calls : InitCalls) (host base : String) (connections : Nat)
    (mctx0 mctx : isc_mem) (ldap_db : ldap_db_t) (threads : Nat) (acts : List (Nat × Op))
    (s s' : Sys) (t i : Nat)
    (hnew : new_ldap_db calls host base connections mctx0 =
      Run.ret (ISC_R_SUCCESS, mctx, some ldap_db))
    (hrun : (Sys.start mctx ldap_db threads).run acts = some s)
    (hs : s.step t Op.trylock = some s')
    (hnow : s'.callers[t]? = some (Caller.holding i)) :
    (s'.db.conn_list[i]?).map (fun c => (c.lock, c.ldap_entries, c.cache_active)) =
      some (some t, [], false) := by
  obtain ⟨hsem, _, hlen, _, hfresh⟩ := new_ldap_db_success calls host base connections mctx0
    mctx ldap_db hnew
  exact Sys.acquired_cache_empty s s' t i
    (Sys.run_clean connections acts _ s
      (Sys.start_inv mctx ldap_db threads connections hsem hlen)
      (Sys.start_clean mctx ldap_db threads hfresh) hrun) hs hnow

theorem pool_checkouts_bounded_witness :
    new_ldap_db all_succeed "ldap://localhost" "cn=dns" 2 ⟨[], 0, 0⟩ =
        Run.ret (ISC_R_SUCCESS, ⟨[], 3, 0⟩, some two_pool) ∧
      (Sys.start ⟨[], 3, 0⟩ two_pool 3).run two_checkouts = some two_pool_full ∧
      two_pool_full.checked_out = 2 ∧
      (two_pool_full.checked_out ≤ 2 ∧
        (∀ t t' i : Nat, two_pool_full.callers[t]? = some (Caller.holding i) →
          two_pool_full.callers[t']? = some (Caller.holding i) → t = t') ∧
        (two_pool_full.checked_out = 2 →
          semaphore_wait two_pool_full.db.conn_semaphore = none ∧
          ∀ (more : List (Nat × Op)) (s' : Sys), two_pool_full.run more = some s' →
            (∀ a ∈ more, a.2.isSignal = false) →
            ∀ t i : Nat, s'.callers[t]? = some (Caller.holding i) →
              two_pool_full.callers[t]? = some (Caller.holding i))) :=
  ⟨by decide, by decide, by decide,
    pool_checkouts_bounded all_succeed "ldap://localhost" "cn=dns" 2 ⟨[], 0, 0⟩ ⟨[], 3, 0⟩
      two_pool 3 two_checkouts two_pool_full (by decide) (by decide)⟩

end LdapHelper

namespace LdapHelper

open LdapConvert LdapConvert.isc_result_t

/-! ## Filling the cache -/

/-- C11: on `two_entries`, whose two entries both have the attribute `aRecord`,
a fill of the empty cache succeeds with two entries in result order, each
with the attribute `aRecord`, but the second entry holds the value
`192.0.2.1` of the first entry instead of its own value `192.0.2.2`: the
cache is not the one the specification describes. -/
theorem cache_query_results_values_of_first_entry :
    cache_query_results ⟨[], 0, 0⟩ two_queried =
        Run.ret (ISC_R_SUCCESS, ⟨[], 6, 0⟩,
          { two_queried with
            ldap_entries :=
              [{ entry := two_entries
                 attributes := [{ name := "aRecord", ldap_values := some ["192.0.2.1"],
                                  values := [{ value := "192.0.2.1" }] }] },
               { entry := two_entries.drop 1
                 attributes := [{ name := "aRecord", ldap_values := some ["192.0.2.1"],
                                  values := [{ value := "192.0.2.1" }] }] }] }) ∧
      (cache_of_result two_entries).map (fun e => e.attributes.map fun a => a.values) =
        [[[{ value := "192.0.2.1" }]], [[{ value := "192.0.2.2" }]]] := by
  decide

/-- A fill that does not end in success leaves the entry list empty. -/
theorem cache_query_results_loop_failure (mctx : isc_mem) (inst : ldap_instance_t)
    (res : LDAPMessage)
    (h : (cache_query_results_loop mctx inst res).1 ≠ ISC_R_SUCCESS) :
    (cache_query_results_loop mctx inst res).2.2.ldap_entries = [] := by
  induction res generalizing mctx inst with
  | nil => simp [cache_query_results_loop] at h
  | cons e next ih =>
    unfold cache_query_results_loop at h ⊢
    split
    · simp [free_query_cache]
    · next mctx1 hget =>
      simp only [hget] at h
      split
      · next mctx2 ldap_entry hfill =>
        simp only [hfill] at h
        exact ih _ _ h
      · simp [free_query_cache]

/-- C12: on `sample_queried`, when the entry node is obtained and the attribute
node is not, `cache_query_results` returns `ISC_R_NOMEMORY` and the cache is
empty, but the entry node obtained in the call has not been given back (one
block handed out, none returned); likewise when the value node is the one
that fails (two blocks handed out, none returned). -/
theorem cache_query_results_leaks_node :
    cache_query_results ⟨[false, true], 0, 0⟩ sample_queried =
        Run.ret (ISC_R_NOMEMORY, ⟨[], 1, 0⟩, sample_queried) ∧
      cache_query_results ⟨[false, false, true], 0, 0⟩ sample_queried =
        Run.ret (ISC_R_NOMEMORY, ⟨[], 2, 0⟩, sample_queried) := by
  decide

/-! ## The entry cursor -/

theorem ldap_first_entry_drop (res : LDAPMessage) (j : Nat) (hj : j < res.length) :
    ldap_first_entry (res.drop j) = some (res.drop j) := by
  have : res.drop j ≠ [] := by
    intro h
    have := congrArg List.length h
    simp only [List.length_drop, List.length_nil] at this
    omega
  cases hd : res.drop j with
  | nil => exact absurd hd this
  | cons e rest => rfl

theorem ldap_next_entry_drop (res : LDAPMessage) (j : Nat) :
    ldap_next_entry (res.drop j) = ldap_first_entry (res.drop (j + 1)) := by
  cases hd : res.drop j with
  | nil =>
    have hlen : res.length ≤ j := by
      have := congrArg List.length hd
      simp only [List.length_drop, List.length_nil] at this
      omega
    rw [List.drop_eq_nil_of_le (by omega)]
    rfl
  | cons e rest =>
    have : res.drop (j + 1) = rest := by
      rw [← List.drop_drop, hd]
      rfl
    rw [this]
    rfl

/-- One call of `next_entry` from the cursor position `j` (the position after
the last entry standing for NULL) returns the entry at position `j + 1`,
counted modulo one more than the number of entries. -/
theorem next_entry_step (res : LDAPMessage) (inst : ldap_instance_t) (j : Nat)
    (hhandle : inst.handle ≠ none) (hres : inst.result = some res)
    (hentry : inst.entry = ldap_first_entry (res.drop j)) (hj : j ≤ res.length) :
    (next_entry inst).1 = ldap_first_entry (res.drop ((j + 1) % (res.length + 1))) ∧
      (next_entry inst).2.entry = (next_entry inst).1 ∧
      (next_entry inst).2.handle = inst.handle ∧
      (next_entry inst).2.result = inst.result := by
  obtain ⟨h, hh⟩ := Option.ne_none_iff_exists'.mp hhandle
  refine ⟨?_, rfl, rfl, rfl⟩
  by_cases hlt : j < res.length
  · rw [ldap_first_entry_drop res j hlt] at hentry
    rw [Nat.mod_eq_of_lt (by omega)]
    simp only [next_entry, hh, hentry, hres]
    exact ldap_next_entry_drop res j
  · have hjk : j = res.length := by omega
    rw [hjk, List.drop_length] at hentry
    rw [hjk, Nat.mod_self, List.drop_zero]
    simp only [next_entry, hh, hentry, hres, ldap_first_entry]

theorem next_entry_calls_entry (res : LDAPMessage) (calls : Nat) (inst : ldap_instance_t)
    (j : Nat) (hhandle : inst.handle ≠ none) (hres : inst.result = some res)
    (hentry : inst.entry = ldap_first_entry (res.drop j)) (hj : j ≤ res.length) :
    (next_entry_calls calls inst).handle ≠ none ∧
      (next_entry_calls calls inst).result = some res ∧
      (next_entry_calls calls inst).entry =
        ldap_first_entry (res.drop ((calls + j) % (res.length + 1))) := by
  induction calls generalizing inst j with
  | zero =>
    refine ⟨hhandle, hres, ?_⟩
    simp only [next_entry_calls, Nat.zero_add]
    rw [Nat.mod_eq_of_lt (by omega)]
    exact hentry
  | succ calls ih =>
    obtain ⟨h1, h2, h3, h4⟩ := next_entry_step res inst j hhandle hres hentry hj
    have hlt : (j + 1) % (res.length + 1) ≤ res.length :=
      Nat.le_of_lt_succ (Nat.mod_lt _ (Nat.succ_pos _))
    have := ih (next_entry inst).2 ((j + 1) % (res.length + 1)) (h3 ▸ hhandle) (h4 ▸ hres)
      (h2.trans h1) hlt
    simp only [next_entry_calls]
    have hmod : (calls + (j + 1) % (res.length + 1)) % (res.length + 1) =
        (calls + 1 + j) % (res.length + 1) := by
      rw [Nat.add_mod, Nat.mod_mod, ← Nat.add_mod]
      congr 1
      omega
    rw [hmod] at this
    exact this

/-- C16, as the code has it: on a connection with a handle, a stored result of
`k` entries and the cursor at its start, the call number `m + 1` of
`next_entry` returns the entry at index `m mod (k + 1)` of the result, and no
entry when that index is `k`. So the first `k` calls return the entries in
order, the next call returns no entry, and the call after that starts again
at the first entry. -/
theorem next_entry_cycles (res : LDAPMessage) (inst : ldap_instance_t) (m : Nat)
    (hhandle : inst.handle ≠ none) (hres : inst.result = some res)
    (hentry : inst.entry = none) :
    (next_entry (next_entry_calls m inst)).1 =
      ldap_first_entry (res.drop (m % (res.length + 1))) := by
  have hstart : inst.entry = ldap_first_entry (res.drop res.length) := by
    rw [hentry, List.drop_length]
    rfl
  obtain ⟨h1, h2, h3⟩ := next_entry_calls_entry res m inst res.length hhandle hres hstart
    (Nat.le_refl _)
  have hlt : (m + res.length) % (res.length + 1) ≤ res.length :=
    Nat.le_of_lt_succ (Nat.mod_lt _ (Nat.succ_pos _))
  obtain ⟨h4, _⟩ := next_entry_step res _ _ h1 h2 h3 hlt
  rw [h4]
  congr 2
  rw [Nat.add_mod, Nat.mod_mod, ← Nat.add_mod]
  have : m + res.length + 1 = m + (res.length + 1) := by omega
  rw [this, Nat.add_mod_right]

theorem next_entry_cycles_witness :
    sample_queried.handle ≠ none ∧ sample_queried.result = some sample_result ∧
      sample_queried.entry = none ∧
      (next_entry (next_entry_calls 2 sample_queried)).1 =
        ldap_first_entry (sample_result.drop (2 % (sample_result.length + 1))) :=
  ⟨by decide, by decide, by decide,
    next_entry_cycles sample_result sample_queried 2 (by decide) (by decide) (by decide)⟩

/-- C16, as stated, fails: on `sample_queried`, whose result has one entry, the
first call of `next_entry` returns that entry, the second returns no entry,
and the third call, made without any new query, returns the entry again. -/
theorem next_entry_restarts :
    (next_entry sample_queried).1 = some sample_result ∧
      (next_entry (next_entry_calls 1 sample_queried)).1 = none ∧
      (next_entry (next_entry_calls 2 sample_queried)).1 = some sample_result := by
  decide

end LdapHelper

namespace LdapHelper

open LdapConvert LdapConvert.isc_result_t

/-! ## Construction of the pool -/

theorem isc_mem_get_of_no_failure (mctx : isc_mem) (h : ∀ b ∈ mctx.failures, b = false) :
    (isc_mem_get mctx).1 = true ∧ ∀ b ∈ (isc_mem_get mctx).2.failures, b = false := by
  unfold isc_mem_get
  split
  · next hf => exact ⟨rfl, h⟩
  · next rest hf =>
    have := h true (by simp [hf])
    simp at this
  · next rest hf =>
    refine ⟨rfl, ?_⟩
    intro b hb
    exact h b (by simp only [hf, List.mem_cons]; exact Or.inr hb)

theorem ldap_connect_none (calls : InitCalls) (i : Nat) :
    ∃ result, ldap_connect calls ldap_auth_t.AUTH_NONE i zero_instance =
      Run.ret (result, created_connection calls i) := by
  unfold ldap_connect created_connection
  cases h1 : calls.ldap_initialize_ok i <;> cases h2 : calls.ldap_simple_bind_ok i <;> simp

theorem new_ldap_db_loop_all (calls : InitCalls) (todo i : Nat) (mctx : isc_mem)
    (ldap_db : ldap_db_t)
    (hmem : ∀ b ∈ mctx.failures, b = false)
    (hmutex : ∀ k, calls.isc_mutex_init k = ISC_R_SUCCESS)
    (hstr : ∀ k, calls.str_new k = ISC_R_SUCCESS)
    (hauth : ldap_db.auth_method = ldap_auth_t.AUTH_NONE) :
    ∃ mctx1, (∀ b ∈ mctx1.failures, b = false) ∧
      new_ldap_db_loop calls todo i mctx ldap_db =
        Run.ret (ISC_R_SUCCESS, mctx1,
          { ldap_db with
            conn_list := ldap_db.conn_list ++
              (List.range' i todo).map (created_connection calls) }, false) := by
  induction todo generalizing i mctx ldap_db with
  | zero => exact ⟨mctx, hmem, by simp [new_ldap_db_loop]⟩
  | succ todo ih =>
    obtain ⟨sem, conn_list, host, base, connections, auth_method⟩ := ldap_db
    simp only at hauth
    subst hauth
    obtain ⟨hget, hrest⟩ := isc_mem_get_of_no_failure mctx hmem
    obtain ⟨r, hconn⟩ := ldap_connect_none calls i
    have hnew : new_ldap_instance calls i mctx =
        (ISC_R_SUCCESS, (isc_mem_get mctx).2, some zero_instance, false) := by
      unfold new_ldap_instance
      rcases hg : isc_mem_get mctx with ⟨ok, m⟩
      rw [hg] at hget
      simp only at hget
      subst hget
      simp [hmutex, hstr]
    obtain ⟨mctx1, hm1, hloop⟩ := ih (i + 1) (isc_mem_get mctx).2
      { conn_semaphore := sem, conn_list := conn_list ++ [created_connection calls i],
        host := host, base := base, connections := connections,
        auth_method := ldap_auth_t.AUTH_NONE }
      hrest rfl
    refine ⟨mctx1, hm1, ?_⟩
    unfold new_ldap_db_loop
    simp only [hnew, hconn]
    rw [hloop]
    simp [List.range'_succ]

/-- C17: for a connection count `c ≥ 1`, when no call of `isc_mem_get` fails and
`str_new`, `set_settings`, `semaphore_init` and `isc_mutex_init` succeed,
`new_ldap_db` returns success, whatever the outcomes of `ldap_initialize` and
`ldap_simple_bind_s` are, and the connection list holds exactly `c`
connections, in the order of creation: the `i`-th is the one created in round
`i`, with a handle when its connect succeeded and without one when it
failed. -/
theorem new_ldap_db_creates_all (calls : InitCalls) (host base : String) (c : Nat)
    (mctx : isc_mem)
    (hc : 1 ≤ c)
    (hmem : ∀ b ∈ mctx.failures, b = false)
    (hstr : ∀ k, calls.str_new k = ISC_R_SUCCESS)
    (hset : calls.set_settings = ISC_R_SUCCESS)
    (hsem : calls.semaphore_init = ISC_R_SUCCESS)
    (hmutex : ∀ k, calls.isc_mutex_init k = ISC_R_SUCCESS) :
    ∃ mctx1 ldap_db,
      new_ldap_db calls host base c mctx = Run.ret (ISC_R_SUCCESS, mctx1, some ldap_db) ∧
      ldap_db.conn_list = (List.range c).map (created_connection calls) ∧
      ldap_db.conn_list.length = c ∧ ldap_db.conn_semaphore = c := by
  obtain ⟨hget, hrest⟩ := isc_mem_get_of_no_failure mctx hmem
  obtain ⟨mctx1, _, hloop⟩ := new_ldap_db_loop_all calls c 0 (isc_mem_get mctx).2
    { conn_semaphore := c, conn_list := [], host := host, base := base, connections := c,
      auth_method := ldap_auth_t.AUTH_NONE } hrest hmutex hstr rfl
  simp only [List.nil_append] at hloop
  refine ⟨mctx1,
    { conn_semaphore := c, conn_list := (List.range' 0 c).map (created_connection calls),
      host := host, base := base, connections := c, auth_method := ldap_auth_t.AUTH_NONE },
    ?_, ?_, ?_, rfl⟩
  · unfold new_ldap_db
    rcases hg : isc_mem_get mctx with ⟨ok, m⟩
    rw [hg] at hget hloop
    simp only at hget hloop
    subst hget
    have hlt : ¬ c < 1 := by omega
    simp only [hstr, hset, hsem, hlt, ne_eq, not_true_eq_false, if_false, hloop]
  · simp [List.range_eq_range']
  · simp

theorem new_ldap_db_creates_all_witness :
    (1 ≤ 3) ∧
      ∃ mctx1 ldap_db,
        new_ldap_db odd_fail "ldap://localhost" "cn=dns" 3 ⟨[false], 0, 0⟩ =
          Run.ret (ISC_R_SUCCESS, mctx1, some ldap_db) ∧
        ldap_db.conn_list = (List.range 3).map (created_connection odd_fail) ∧
        ldap_db.conn_list.length = 3 ∧ ldap_db.conn_semaphore = 3 :=
  ⟨by decide,
    new_ldap_db_creates_all odd_fail "ldap://localhost" "cn=dns" 3 ⟨[false], 0, 0⟩ (by decide)
      (by decide) (fun _ => rfl) rfl rfl (fun _ => rfl)⟩

end LdapHelper

namespace LdapConvert

open isc_result_t

/-! ## The count of components that `dn_to_text` writes -/

end LdapConvert

namespace LdapHelper

open LdapConvert LdapConvert.isc_result_t

/-! ## Lists of rdata -/

theorem findrdatatype_loop_cases (rdatalist : List dns_rdatalist_t) (rdtype k : Nat) :
    (∃ i found, rdatalist[i]? = some found ∧ found.type = rdtype ∧
        (∀ j other, j < i → rdatalist[j]? = some other → other.type ≠ rdtype) ∧
        ldapdb_rdatalist_findrdatatype_loop rdatalist rdtype k = some (k + i)) ∨
      ((∀ other ∈ rdatalist, other.type ≠ rdtype) ∧
        ldapdb_rdatalist_findrdatatype_loop rdatalist rdtype k = none) := by
  induction rdatalist generalizing k with
  | nil => exact Or.inr ⟨by simp, rfl⟩
  | cons rdlist next ih =>
    by_cases ht : rdlist.type = rdtype
    · refine Or.inl ⟨0, rdlist, by simp, ht, ?_, ?_⟩
      · intro j other hj
        omega
      · simp [ldapdb_rdatalist_findrdatatype_loop, ht]
    · rcases ih (k + 1) with ⟨i, found, hget, htype, hfirst, hloop⟩ | ⟨hnone, hloop⟩
      · refine Or.inl ⟨i + 1, found, by simpa using hget, htype, ?_, ?_⟩
        · intro j other hj hother
          cases j with
          | zero =>
            simp only [List.getElem?_cons_zero, Option.some.injEq] at hother
            rw [← hother]
            exact ht
          | succ j =>
            simp only [List.getElem?_cons_succ] at hother
            exact hfirst j other (by omega) hother
        · simp only [ldapdb_rdatalist_findrdatatype_loop, ne_eq, ht, not_false_eq_true, if_true]
          rw [hloop]
          congr 1
          omega
      · refine Or.inr ⟨?_, ?_⟩
        · intro other hother
          simp only [List.mem_cons] at hother
          rcases hother with h | h
          · rw [h]
            exact ht
          · exact hnone other h
        · simp only [ldapdb_rdatalist_findrdatatype_loop, ne_eq, ht, not_false_eq_true, if_true]
          exact hloop

/-- C18: called with `*rdlistp` NULL on a list `L` and a type `T`,
`ldapdb_rdatalist_findrdatatype` either returns `ISC_R_SUCCESS` with the
first bucket of `L` whose type is `T` (no bucket before it has that type), or
returns `ISC_R_NOTFOUND` with NULL, and then no bucket of `L` has type `T`;
in both cases the list on return is `L`. -/
theorem findrdatatype_first_bucket (rdatalist : ldapdb_rdatalist_t) (rdtype : Nat) :
    (∃ i found, rdatalist[i]? = some found ∧ found.type = rdtype ∧
        (∀ j other, j < i → rdatalist[j]? = some other → other.type ≠ rdtype) ∧
        ldapdb_rdatalist_findrdatatype rdatalist rdtype none =
          Run.ret (ISC_R_SUCCESS, some i, rdatalist)) ∨
      ((∀ other ∈ rdatalist, other.type ≠ rdtype) ∧
        ldapdb_rdatalist_findrdatatype rdatalist rdtype none =
          Run.ret (ISC_R_NOTFOUND, none, rdatalist)) := by
  rcases findrdatatype_loop_cases rdatalist rdtype 0 with
    ⟨i, found, hget, htype, hfirst, hloop⟩ | ⟨hnone, hloop⟩
  · refine Or.inl ⟨i, found, hget, htype, hfirst, ?_⟩
    simp [ldapdb_rdatalist_findrdatatype, hloop]
  · exact Or.inr ⟨hnone, by simp [ldapdb_rdatalist_findrdatatype, hloop]⟩

/-- A round that returns has set `seen_error` exactly when its result is not
success, and a round that succeeded leaves a list that is not empty. -/
theorem rdatalist_get_round_result (lib : RdataLib) (record : RecordText) (mctx : isc_mem)
    (rdatalist : ldapdb_rdatalist_t) (rdlist : Option Nat) (round : RoundState)
    (h : ldapdb_rdatalist_get_round lib record mctx rdatalist rdlist = Run.ret round) :
    (round.seen_error = true ∧ round.result ≠ ISC_R_SUCCESS) ∨
      (round.seen_error = false ∧ round.result = ISC_R_SUCCESS ∧ round.rdatalist ≠ []) := by
  unfold ldapdb_rdatalist_get_round at h
  simp only at h
  split at h
  · next hne =>
    simp only [Run.ret.injEq] at h
    subst h
    exact Or.inl ⟨rfl, hne⟩
  split at h
  · simp at h
  split at h
  · next hne =>
    simp only [Run.ret.injEq] at h
    subst h
    exact Or.inl ⟨rfl, hne⟩
  split at h
  · next hne =>
    simp only [Run.ret.injEq] at h
    subst h
    exact Or.inl ⟨rfl, hne⟩
  split at h
  · next hne =>
    simp only [Run.ret.injEq] at h
    subst h
    exact Or.inl ⟨rfl, hne⟩
  split at h
  · next hne =>
    simp only [Run.ret.injEq] at h
    subst h
    exact Or.inl ⟨rfl, hne⟩
  split at h
  · simp at h
  split at h
  · simp only [Run.ret.injEq] at h
    subst h
    exact Or.inl ⟨rfl, by simp⟩
  split at h
  · simp only [Run.ret.injEq] at h
    subst h
    exact Or.inl ⟨rfl, by simp⟩
  split at h
  · simp at h
  · split at h
    · simp at h
    · next found hfound =>
      split at h
      · simp at h
      · simp only [Run.ret.injEq] at h
        subst h
        refine Or.inr ⟨rfl, rfl, ?_⟩
        intro hnil
        have := congrArg List.length hnil
        have hlt := (List.getElem?_eq_some_iff.mp hfound).1
        simp only [List.length_set, List.length_nil] at this
        omega
  · split at h
    · simp only [Run.ret.injEq] at h
      subst h
      exact Or.inl ⟨rfl, by simp⟩
    · simp only [Run.ret.injEq] at h
      subst h
      exact Or.inr ⟨rfl, rfl, by simp⟩

/-- C13: a run of `ldapdb_rdatalist_get`, for whatever texts its round sets, in
which the lexer was created and `targetmem` obtained, so that the list was
initialised, returns with an empty list when the result is not success and
with a list that is not empty when the result is success. -/
theorem rdatalist_get_all_or_nothing (lib : RdataLib) (record : RecordText)
    (mctx mctx1 : isc_mem) (rdatalist built : ldapdb_rdatalist_t) (result : isc_result_t)
    (hlex : lib.isc_lex_create = ISC_R_SUCCESS)
    (hmem : (isc_mem_get mctx).1 = true)
    (h : ldapdb_rdatalist_get_record lib record mctx rdatalist = Run.ret (result, mctx1, built)) :
    (result ≠ ISC_R_SUCCESS → built = []) ∧ (result = ISC_R_SUCCESS → built ≠ []) := by
  unfold ldapdb_rdatalist_get_record at h
  simp only [hlex, ne_eq, not_true_eq_false, if_false] at h
  rcases hg : isc_mem_get mctx with ⟨ok, m⟩
  rw [hg] at hmem h
  simp only at hmem
  subst hmem
  simp only at h
  split at h
  · simp at h
  · next round hround =>
    simp only [Run.ret.injEq, Prod.mk.injEq] at h
    obtain ⟨hres, _, hbuilt⟩ := h
    rcases rdatalist_get_round_result lib record m [] none round hround with
      ⟨hseen, hne⟩ | ⟨hseen, heq, hnonempty⟩
    · rw [hseen] at hbuilt
      simp only [if_true, ldapdb_rdatalist_destroy] at hbuilt
      rw [← hres, ← hbuilt]
      exact ⟨fun _ => rfl, fun hs => absurd hs hne⟩
    · rw [hseen] at hbuilt
      simp only [Bool.false_eq_true, if_false] at hbuilt
      rw [← hres, ← hbuilt]
      exact ⟨fun hs => absurd heq hs, fun _ => hnonempty⟩

theorem rdatalist_get_all_or_nothing_witness :
    sample_rdata_lib.isc_lex_create = ISC_R_SUCCESS ∧
      (isc_mem_get ⟨[false, false, false, true], 0, 0⟩).1 = true ∧
      ldapdb_rdatalist_get sample_rdata_lib ⟨[false, false, false, true], 0, 0⟩
          [⟨1, 1, 3600, []⟩] = Run.ret (ISC_R_NOMEMORY, ⟨[], 3, 3⟩, []) ∧
      ((ISC_R_NOMEMORY ≠ ISC_R_SUCCESS → ([] : ldapdb_rdatalist_t) = []) ∧
        (ISC_R_NOMEMORY = ISC_R_SUCCESS → ([] : ldapdb_rdatalist_t) ≠ [])) :=
  ⟨by decide, by decide, by decide,
    rdatalist_get_all_or_nothing sample_rdata_lib fixed_record
      ⟨[false, false, false, true], 0, 0⟩ ⟨[], 3, 3⟩ [⟨1, 1, 3600, []⟩] [] ISC_R_NOMEMORY
      (by decide) (by decide) (by decide)⟩

end LdapHelper

namespace LdapHelper

open LdapConvert LdapConvert.isc_result_t

theorem isc_mem_get_eq_of_no_failure (mctx : isc_mem) (h : ∀ b ∈ mctx.failures, b = false) :
    isc_mem_get mctx = (true, (isc_mem_get mctx).2) ∧
      ∀ b ∈ (isc_mem_get mctx).2.failures, b = false := by
  obtain ⟨h1, h2⟩ := isc_mem_get_of_no_failure mctx h
  refine ⟨?_, h2⟩
  rcases hg : isc_mem_get mctx with ⟨ok, m⟩
  rw [hg] at h1
  simp only at h1
  rw [h1]

theorem findrdatatype_of_first (rdatalist : ldapdb_rdatalist_t) (rdtype i : Nat)
    (found : dns_rdatalist_t)
    (hfound : rdatalist[i]? = some found) (htype : found.type = rdtype)
    (hfirst : ∀ j other, j < i → rdatalist[j]? = some other → other.type ≠ rdtype) :
    ldapdb_rdatalist_findrdatatype rdatalist rdtype none =
      Run.ret (ISC_R_SUCCESS, some i, rdatalist) := by
  rcases findrdatatype_first_bucket rdatalist rdtype with
    ⟨k, other, hk, hktype, hkfirst, hres⟩ | ⟨hnone, _⟩
  · have hik : k = i := by
      rcases Nat.lt_trichotomy k i with hlt | heq | hgt
      · exact absurd hktype (hfirst k other hlt hk)
      · exact heq
      · exact absurd htype (hkfirst i found hgt hfound)
    rw [hres, hik]
  · exact absurd htype (hnone found (List.getElem?_mem hfound))

/-- The branch of the round for a bucket that is found, which no run of the
source reaches (its one round starts from the empty list, and a later round
would start with `rdlist` set, see `rdatalist_further_round_aborts`). Were a
round entered with `rdlist` NULL on a list whose first bucket of the record's
type `T` stands at index `i` with TTL `t1`, for a record whose texts parse
(class `IN`, type `T`, TTL `t2`) and convert, with the allocations succeeding:
when `t2` differs from `t1` the round would end at the `INSIST` on the TTL;
when `t2 = t1` the node would be appended to the bucket at index `i` and the
list keep its length. -/
theorem rdatalist_round_same_type (lib : RdataLib) (record : RecordText) (mctx : isc_mem)
    (rdatalist : ldapdb_rdatalist_t) (i rdtype ttl : Nat) (found : dns_rdatalist_t)
    (target : isc_buffer_t)
    (hclass : lib.dns_rdataclass_fromtext record.rdclass_text =
      (ISC_R_SUCCESS, dns_rdataclass_in))
    (htype : lib.dns_rdatatype_fromtext record.rdtype_text = (ISC_R_SUCCESS, rdtype))
    (httl : lib.dns_ttl_fromtext record.ttl_text = (ISC_R_SUCCESS, ttl))
    (hopen : lib.isc_lex_openbuffer record.rdata_text = ISC_R_SUCCESS)
    (hconv : lib.dns_rdata_fromtext dns_rdataclass_in rdtype record.rdata_text
      { base := List.replicate MINTSIZ 0, used := 0 } = (ISC_R_SUCCESS, target))
    (hclose : lib.isc_lex_close = ISC_R_SUCCESS)
    (hmem : ∀ b ∈ mctx.failures, b = false)
    (hfound : rdatalist[i]? = some found) (hT : found.type = rdtype)
    (hfirst : ∀ j other, j < i → rdatalist[j]? = some other → other.type ≠ rdtype) :
    (found.ttl ≠ ttl →
        ldapdb_rdatalist_get_round lib record mctx rdatalist none = Run.abort Check.INSIST) ∧
      (found.ttl = ttl →
        ldapdb_rdatalist_get_round lib record mctx rdatalist none =
            Run.ret
              { result := ISC_R_SUCCESS, seen_error := false,
                mctx := (isc_mem_get (isc_mem_get mctx).2).2,
                rdatalist := rdatalist.set i
                  { found with
                    rdata := found.rdata ++
                      [{ data := target.base.take target.used, length := target.used,
                         rdclass := dns_rdataclass_in, type := rdtype }] },
                rdlist := some i } ∧
          (rdatalist.set i
            { found with
              rdata := found.rdata ++
                [{ data := target.base.take target.used, length := target.used,
                   rdclass := dns_rdataclass_in, type := rdtype }] }).length =
            rdatalist.length) := by
  obtain ⟨hg1, hrest⟩ := isc_mem_get_eq_of_no_failure mctx hmem
  obtain ⟨hg2, _⟩ := isc_mem_get_eq_of_no_failure _ hrest
  have hfind := findrdatatype_of_first rdatalist rdtype i found hfound hT hfirst
  constructor
  · intro hne
    unfold ldapdb_rdatalist_get_round
    simp only [hclass, htype, httl, hopen, hconv, hclose, ne_eq, not_true_eq_false, if_false]
    rw [hg1]
    simp only
    rw [hg2]
    simp only [hfind, hfound, hne, not_false_eq_true, if_true]
  · intro heq
    refine ⟨?_, by simp⟩
    unfold ldapdb_rdatalist_get_round
    simp only [hclass, htype, httl, hopen, hconv, hclose, ne_eq, not_true_eq_false, if_false]
    rw [hg1]
    simp only
    rw [hg2]
    simp only [hfind, hfound, heq, not_true_eq_false, if_false]

theorem rdatalist_round_same_type_witness :
    sample_rdata_lib.dns_rdatatype_fromtext example_record.rdtype_text =
        (ISC_R_SUCCESS, dns_rdatatype_ns) ∧
      sample_rdata_lib.dns_ttl_fromtext example_record.ttl_text = (ISC_R_SUCCESS, 86400) ∧
      two_buckets[1]? = some ⟨1, 2, 3600, []⟩ ∧
      (⟨1, 2, 3600, []⟩ : dns_rdatalist_t).ttl ≠ 86400 ∧
      (((⟨1, 2, 3600, []⟩ : dns_rdatalist_t).ttl ≠ 86400 →
          ldapdb_rdatalist_get_round sample_rdata_lib example_record ⟨[], 0, 0⟩
            two_buckets none = Run.abort Check.INSIST) ∧
        ((⟨1, 2, 3600, []⟩ : dns_rdatalist_t).ttl = 86400 →
          ldapdb_rdatalist_get_round sample_rdata_lib example_record ⟨[], 0, 0⟩
              two_buckets none =
              Run.ret
                { result := ISC_R_SUCCESS, seen_error := false,
                  mctx := (isc_mem_get (isc_mem_get ⟨[], 0, 0⟩).2).2,
                  rdatalist := two_buckets.set 1
                    { (⟨1, 2, 3600, []⟩ : dns_rdatalist_t) with
                      rdata := (⟨1, 2, 3600, []⟩ : dns_rdatalist_t).rdata ++
                        [{ data := example_target.base.take example_target.used,
                           length := example_target.used,
                           rdclass := dns_rdataclass_in, type := dns_rdatatype_ns }] },
                  rdlist := some 1 } ∧
            (two_buckets.set 1
              { (⟨1, 2, 3600, []⟩ : dns_rdatalist_t) with
                rdata := (⟨1, 2, 3600, []⟩ : dns_rdatalist_t).rdata ++
                  [{ data := example_target.base.take example_target.used,
                     length := example_target.used,
                     rdclass := dns_rdataclass_in, type := dns_rdatatype_ns }] }).length =
              two_buckets.length)) :=
  ⟨by decide, by decide, by decide, by decide,
    rdatalist_round_same_type sample_rdata_lib example_record ⟨[], 0, 0⟩
      two_buckets 1 dns_rdatatype_ns 86400 ⟨1, 2, 3600, []⟩ example_target
      (by decide) (by decide) (by decide) (by decide) (Prod.ext (by decide) rfl) (by decide)
      (by decide) (by decide) (by decide) (by
        intro j other hj hother
        have hj0 : j = 0 := by omega
        subst hj0
        simp only [two_buckets, List.getElem?_cons_zero, Option.some.injEq] at hother
        rw [← hother]
        decide)⟩

end LdapHelper

namespace LdapHelper

open LdapConvert LdapConvert.isc_result_t

/-- The body of `ldapdb_rdatalist_get` with the texts `IN`, `NS`, `86400` and
`host.example.org.` in the place of the texts that the source writes: when the
lexer calls, the three parsers and the conversion succeed and no allocation
fails, the result is success with a list of exactly one bucket, of class `IN`,
type `NS` and TTL 86400, holding exactly one node; the bytes of the node are
the used part of the conversion buffer and its length is the used length. The
function of the source cannot be given these texts, see
`rdatalist_get_fixed_record`. -/
theorem rdatalist_get_example (lib : RdataLib) (mctx : isc_mem)
    (rdatalist : ldapdb_rdatalist_t) (target : isc_buffer_t) (decode : List Nat → String)
    (hlex : lib.isc_lex_create = ISC_R_SUCCESS)
    (hclass : lib.dns_rdataclass_fromtext "IN" = (ISC_R_SUCCESS, dns_rdataclass_in))
    (htype : lib.dns_rdatatype_fromtext "NS" = (ISC_R_SUCCESS, dns_rdatatype_ns))
    (httl : lib.dns_ttl_fromtext "86400" = (ISC_R_SUCCESS, 86400))
    (hopen : lib.isc_lex_openbuffer "host.example.org." = ISC_R_SUCCESS)
    (hconv : lib.dns_rdata_fromtext dns_rdataclass_in dns_rdatatype_ns "host.example.org."
      { base := List.replicate MINTSIZ 0, used := 0 } = (ISC_R_SUCCESS, target))
    (hclose : lib.isc_lex_close = ISC_R_SUCCESS)
    (hmem : ∀ b ∈ mctx.failures, b = false)
    (hfit : target.used ≤ target.base.length)
    (hdecode : decode (target.base.take target.used) = "host.example.org.") :
    ∃ mctx1 node,
      ldapdb_rdatalist_get_record lib example_record mctx rdatalist =
        Run.ret (ISC_R_SUCCESS, mctx1,
          [{ rdclass := dns_rdataclass_in, type := dns_rdatatype_ns, ttl := 86400,
             rdata := [node] }]) ∧
      node.data = target.base.take target.used ∧ node.length = target.used ∧
      node.data.length = node.length ∧ node.rdclass = dns_rdataclass_in ∧
      node.type = dns_rdatatype_ns ∧ decode node.data = "host.example.org." := by
  obtain ⟨hg1, hrest1⟩ := isc_mem_get_eq_of_no_failure mctx hmem
  obtain ⟨hg2, hrest2⟩ := isc_mem_get_eq_of_no_failure _ hrest1
  obtain ⟨hg3, hrest3⟩ := isc_mem_get_eq_of_no_failure _ hrest2
  obtain ⟨hg4, _⟩ := isc_mem_get_eq_of_no_failure _ hrest3
  refine ⟨isc_mem_put (isc_mem_get (isc_mem_get (isc_mem_get (isc_mem_get mctx).2).2).2).2,
    { data := target.base.take target.used, length := target.used,
      rdclass := dns_rdataclass_in, type := dns_rdatatype_ns }, ?_, rfl, rfl, ?_, rfl, rfl,
    hdecode⟩
  · have hround : ldapdb_rdatalist_get_round lib example_record (isc_mem_get mctx).2 [] none =
        Run.ret
          { result := ISC_R_SUCCESS, seen_error := false,
            mctx := (isc_mem_get (isc_mem_get (isc_mem_get (isc_mem_get mctx).2).2).2).2,
            rdatalist := [{ rdclass := dns_rdataclass_in, type := dns_rdatatype_ns,
                            ttl := 86400,
                            rdata := [{ data := target.base.take target.used,
                                        length := target.used,
                                        rdclass := dns_rdataclass_in,
                                        type := dns_rdatatype_ns }] }],
            rdlist := some 0 } := by
      unfold ldapdb_rdatalist_get_round
      simp only [example_record, hclass, htype, httl, hopen, hconv, hclose, ne_eq,
        not_true_eq_false, if_false]
      rw [hg2]
      simp only
      rw [hg3]
      simp only [ldapdb_rdatalist_findrdatatype, ldapdb_rdatalist_findrdatatype_loop, if_true]
      rw [hg4]
      simp
    unfold ldapdb_rdatalist_get_record
    simp only [hlex, ne_eq, not_true_eq_false, if_false]
    rw [hg1]
    simp only [hround, Bool.false_eq_true, if_false]
  · simp only [List.length_take]
    omega

theorem example_target_eq :
    example_target =
      { base := List.take 0 (List.replicate MINTSIZ 0) ++ example_wire ++
          List.drop (0 + example_wire.length) (List.replicate MINTSIZ 0),
        used := 0 + example_wire.length } := by
  have h : simple_fromtext (String.mk ("host.example.org.".data.dropLast)) =
      (ISC_R_SUCCESS, some example_wire) := by decide
  simp only [example_target, sample_rdata_lib, h]
  rfl

theorem example_target_fits : example_target.used ≤ example_target.base.length := by
  rw [example_target_eq]
  simp only [List.length_append, List.length_take, List.length_drop, List.length_replicate]
  omega

theorem rdatalist_get_example_witness :
    sample_rdata_lib.dns_rdataclass_fromtext "IN" = (ISC_R_SUCCESS, dns_rdataclass_in) ∧
      sample_rdata_lib.dns_rdatatype_fromtext "NS" = (ISC_R_SUCCESS, dns_rdatatype_ns) ∧
      sample_rdata_lib.dns_ttl_fromtext "86400" = (ISC_R_SUCCESS, 86400) ∧
      example_target.base.take example_target.used = example_wire ∧
      String.mk (wire_totext 18 example_wire) = "host.example.org." ∧
      ∃ mctx1 node,
        ldapdb_rdatalist_get_record sample_rdata_lib example_record ⟨[], 0, 0⟩ [] =
          Run.ret (ISC_R_SUCCESS, mctx1,
            [{ rdclass := dns_rdataclass_in, type := dns_rdatatype_ns, ttl := 86400,
               rdata := [node] }]) ∧
        node.data = example_target.base.take example_target.used ∧
        node.length = example_target.used ∧
        node.data.length = node.length ∧ node.rdclass = dns_rdataclass_in ∧
        node.type = dns_rdatatype_ns ∧
        (fun wire => String.mk (wire_totext wire.length wire)) node.data =
          "host.example.org." :=
  ⟨by decide, by decide, by decide, by decide, by decide,
    rdatalist_get_example sample_rdata_lib ⟨[], 0, 0⟩ [] example_target
      (fun wire => String.mk (wire_totext wire.length wire))
      (by decide) (by decide) (by decide) (by decide) (by decide) (Prod.ext (by decide) rfl)
      (by decide) (by decide) example_target_fits (by decide)⟩

end LdapHelper

namespace LdapHelper

open LdapConvert LdapConvert.isc_result_t

/-! ## The scan of `get_connection` always finds a connection -/

theorem countP_drop_set {α : Type} (q : α → Bool) (l : List α) (i p : Nat) (c x : α)
    (h : l[i]? = some c) :
    ((l.set i x).drop p).countP q + (if p ≤ i ∧ q c = true then 1 else 0) =
      (l.drop p).countP q + (if p ≤ i ∧ q x = true then 1 else 0) := by
  by_cases hp : p ≤ i
  · have hget : (l.drop p)[i - p]? = some c := by
      rw [List.getElem?_drop]
      have : p + (i - p) = i := by omega
      rw [this]
      exact h
    have := countP_set_of_getElem? q (l.drop p) (i - p) c x hget
    rw [List.drop_set, if_neg (by omega)]
    simp only [hp, true_and]
    exact this
  · rw [List.drop_set_of_lt x l (by omega)]
    simp [hp]

theorem countP_add_le {α : Type} (p q r : α → Bool) (l : List α)
    (hp : ∀ x, p x = true → r x = true) (hq : ∀ x, q x = true → r x = true)
    (hpq : ∀ x, p x = true → q x = false) :
    l.countP p + l.countP q ≤ l.countP r := by
  induction l with
  | nil => simp
  | cons x rest ih =>
    have h1 := hp x
    have h2 := hq x
    have h3 := hpq x
    simp only [List.countP_cons]
    cases hpx : p x <;> cases hqx : q x <;> cases hrx : r x <;>
      simp [hpx, hqx, hrx] at h1 h2 h3 ⊢ <;> omega

theorem countP_drop_succ {α : Type} (q : α → Bool) (l : List α) (i : Nat) (c : α)
    (h : l[i]? = some c) :
    (l.drop i).countP q = (l.drop (i + 1)).countP q + (if q c = true then 1 else 0) := by
  obtain ⟨hi, hc⟩ := List.getElem?_eq_some_iff.mp h
  rw [List.drop_eq_getElem_cons hi, List.countP_cons, hc]

end LdapHelper

namespace LdapHelper

open LdapConvert LdapConvert.isc_result_t

theorem scansFrom_mono (i : Nat) (x : Caller) (h : Caller.scansFrom (i + 1) x = true) :
    Caller.scansFrom i x = true := by
  cases x <;> simp_all [Caller.scansFrom]
  omega

theorem Sys.step_room (n : Nat) (s s' : Sys) (t : Nat) (op : Op) (h : s.Inv n)
    (hroom : s.Room) (hs : s.step t op = some s') : s'.Room := by
  obtain ⟨hlen, hsem, hheld⟩ := h
  obtain ⟨hab, hK, hR⟩ := hroom
  obtain ⟨_, hcase⟩ := Sys.step_cases s s' t op hs
  rcases hcase with ⟨_, hc, hpos, rfl⟩ | ⟨i, _, hc, hnone, rfl⟩ |
    ⟨i, inst, _, hc, hinst, hl, rfl⟩ | ⟨i, inst, _, hc, hinst, hl, rfl⟩ |
    ⟨i, inst, mctx, inst', _, hc, hinst, hl, rfl⟩ | ⟨i, inst, _, hc, hinst, rfl⟩ |
    ⟨_, hc, rfl⟩
  · -- semaphore_wait
    refine ⟨hab, ?_, ?_⟩
    · have := countP_set_of_getElem? Caller.isHolding s.callers t _ (Caller.scanning 0) hc
      simp only [Caller.isHolding, Bool.false_eq_true, if_false] at this
      simp only
      omega
    · intro p
      have hσ := countP_set_of_getElem? (Caller.scansFrom p) s.callers t _ (Caller.scanning 0) hc
      have hp := hR p
      simp only [Caller.scansFrom, Bool.false_eq_true, if_false, decide_eq_true_eq,
        Nat.le_zero_eq] at hσ
      simp only
      by_cases hp0 : p = 0
      · subst hp0
        have hbusy := countP_add_le Caller.isHolding (Caller.scansFrom 0) Caller.isBusy s.callers
          (by intro x hx; cases x <;> simp_all [Caller.isHolding, Caller.isBusy])
          (by intro x hx; cases x <;> simp_all [Caller.scansFrom, Caller.isBusy])
          (by intro x hx; cases x <;> simp_all [Caller.isHolding, Caller.scansFrom])
        simp only [if_true, List.drop_zero] at hσ hp ⊢
        omega
      · simp only [hp0, if_false] at hσ
        omega
  · -- the scan has reached the end of the list
    exfalso
    have hp := hR i
    have hlen0 : s.db.conn_list.length ≤ i := by
      rcases Nat.lt_or_ge i s.db.conn_list.length with hlt | hge
      · rw [List.getElem?_eq_getElem hlt] at hnone
        simp at hnone
      · exact hge
    rw [List.drop_eq_nil_of_le hlen0] at hp
    have hpos : 0 < s.callers.countP (Caller.scansFrom i) :=
      List.countP_pos_iff.mpr ⟨_, List.getElem?_mem hc, by simp [Caller.scansFrom]⟩
    simp only [List.countP_nil] at hp
    omega
  · -- the lock is taken
    have hfree : isFree inst = true := by simp [isFree, hl]
    have hnew : isFree (get_connection_init s.db { inst with lock := some t }) = false := by
      simp [isFree, get_connection_init]
    refine ⟨hab, ?_, ?_⟩
    · have h1 := countP_set_of_getElem? isFree s.db.conn_list i inst
        (get_connection_init s.db { inst with lock := some t }) hinst
      have h2 := countP_set_of_getElem? Caller.isHolding s.callers t _ (Caller.holding i) hc
      simp only [hfree, hnew, if_true, Bool.false_eq_true, if_false] at h1
      simp only [Caller.isHolding, Bool.false_eq_true, if_false, if_true] at h2
      simp only [List.length_set]
      omega
    · intro p
      have hσ := countP_set_of_getElem? (Caller.scansFrom p) s.callers t _ (Caller.holding i) hc
      have hf := countP_drop_set isFree s.db.conn_list i p inst
        (get_connection_init s.db { inst with lock := some t }) hinst
      have hp := hR p
      simp only [Caller.scansFrom, Bool.false_eq_true, if_false, decide_eq_true_eq] at hσ
      simp only [hfree, hnew, and_true, Bool.false_eq_true, and_false, if_false] at hf
      simp only
      by_cases hpi : p ≤ i
      · simp only [hpi, if_true] at hσ hf
        omega
      · simp only [hpi, if_false] at hσ hf
        omega
  · -- the lock is busy
    have hbusy : isFree inst = false := by
      cases hlock : inst.lock with
      | none => exact absurd hlock hl
      | some owner => simp [isFree, hlock]
    refine ⟨hab, ?_, ?_⟩
    · have h2 := countP_set_of_getElem? Caller.isHolding s.callers t _
        (Caller.scanning (i + 1)) hc
      simp only [Caller.isHolding, Bool.false_eq_true, if_false] at h2
      simp only
      omega
    intro p
    have hσ := countP_set_of_getElem? (Caller.scansFrom p) s.callers t _
      (Caller.scanning (i + 1)) hc
    have hp := hR p
    simp only [Caller.scansFrom, decide_eq_true_eq] at hσ
    simp only
    by_cases hpi : p ≤ i
    · have hpi1 : p ≤ i + 1 := by omega
      simp only [hpi, hpi1, if_true] at hσ
      omega
    · by_cases hpi1 : p ≤ i + 1
      · have hpeq : p = i + 1 := by omega
        subst hpeq
        have hlt := countP_lt_of_getElem? (Caller.scansFrom (i + 1)) (Caller.scansFrom i)
          s.callers t _ (scansFrom_mono i) hc (by simp [Caller.scansFrom])
          (by simp [Caller.scansFrom])
        have hsucc := countP_drop_succ isFree s.db.conn_list i inst hinst
        have hpi0 := hR i
        simp only [hbusy, Bool.false_eq_true, if_false, Nat.add_zero] at hsucc
        simp only [hpi, hpi1, if_true, if_false] at hσ
        omega
      · simp only [hpi, hpi1, if_false] at hσ
        omega
  · -- the holder uses its connection
    have hsame : isFree inst' = isFree inst := by simp [isFree, hl]
    refine ⟨hab, ?_, ?_⟩
    · have h1 := countP_set_of_getElem? isFree s.db.conn_list i inst inst' hinst
      simp only [hsame] at h1
      simp only [List.length_set]
      omega
    · intro p
      have hf := countP_drop_set isFree s.db.conn_list i p inst inst' hinst
      have hp := hR p
      simp only [hsame] at hf
      simp only
      omega
  · -- UNLOCK
    have hlocked : isFree inst = false := by
      have := hheld t i hc
      simp only [hinst, Option.map_some', Option.some.injEq] at this
      simp [isFree, this]
    have hnew : isFree (UNLOCK (put_connection_free s.mctx inst).2) = true := by
      simp [isFree, UNLOCK]
    refine ⟨hab, ?_, ?_⟩
    · have h1 := countP_set_of_getElem? isFree s.db.conn_list i inst
        (UNLOCK (put_connection_free s.mctx inst).2) hinst
      have h2 := countP_set_of_getElem? Caller.isHolding s.callers t _ Caller.signalling hc
      simp only [hlocked, hnew, Bool.false_eq_true, if_false, if_true] at h1
      simp only [Caller.isHolding, if_true, Bool.false_eq_true, if_false] at h2
      simp only [List.length_set]
      omega
    · intro p
      have hσ := countP_set_of_getElem? (Caller.scansFrom p) s.callers t _ Caller.signalling hc
      have hf := countP_drop_set isFree s.db.conn_list i p inst
        (UNLOCK (put_connection_free s.mctx inst).2) hinst
      have hp := hR p
      simp only [Caller.scansFrom, Bool.false_eq_true, if_false] at hσ
      simp only [hlocked, hnew, Bool.false_eq_true, and_false, if_false, and_true] at hf
      simp only
      by_cases hpi : p ≤ i
      · simp only [hpi, if_true] at hf
        omega
      · simp only [hpi, if_false] at hf
        omega
  · -- semaphore_signal
    refine ⟨hab, ?_, ?_⟩
    · have h2 := countP_set_of_getElem? Caller.isHolding s.callers t _ Caller.idle hc
      simp only [Caller.isHolding, Bool.false_eq_true, if_false] at h2
      simp only
      omega
    · intro p
      have hσ := countP_set_of_getElem? (Caller.scansFrom p) s.callers t _ Caller.idle hc
      have hp := hR p
      simp only [Caller.scansFrom, Bool.false_eq_true, if_false] at hσ
      simp only
      omega

theorem Sys.run_room (n : Nat) (acts : List (Nat × Op)) (s s' : Sys) (h : s.Inv n)
    (hroom : s.Room) (hrun : s.run acts = some s') : s'.Inv n ∧ s'.Room := by
  induction acts generalizing s with
  | nil =>
    simp only [Sys.run, Option.some.injEq] at hrun
    exact hrun ▸ ⟨h, hroom⟩
  | cons a more ih =>
    obtain ⟨t, op⟩ := a
    simp only [Sys.run] at hrun
    split at hrun
    · simp at hrun
    · next s1 hstep =>
      exact ih s1 (Sys.step_inv n s s1 t op h hstep) (Sys.step_room n s s1 t op h hroom hstep)
        hrun

theorem Sys.start_room (mctx : isc_mem) (ldap_db : ldap_db_t) (threads : Nat)
    (hunlocked : ∀ c ∈ ldap_db.conn_list, c.lock = none) :
    (Sys.start mctx ldap_db threads).Room := by
  refine ⟨rfl, ?_, ?_⟩
  · have hall : ldap_db.conn_list.countP isFree = ldap_db.conn_list.length :=
      List.countP_eq_length.mpr fun c hc => by simp [isFree, hunlocked c hc]
    simp only [Sys.start, List.countP_replicate, Caller.isHolding, Bool.false_eq_true, if_false]
    omega
  · intro p
    simp [Sys.start, List.countP_replicate, Caller.scansFrom]

theorem Sys.room_free_connection (s : Sys) (hroom : s.Room) (t i : Nat)
    (hc : s.callers[t]? = some (Caller.scanning i)) :
    ∃ j c, i ≤ j ∧ s.db.conn_list[j]? = some c ∧ c.lock = none := by
  obtain ⟨_, _, hR⟩ := hroom
  have hpos : 0 < s.callers.countP (Caller.scansFrom i) :=
    List.countP_pos_iff.mpr ⟨_, List.getElem?_mem hc, by simp [Caller.scansFrom]⟩
  have hfree : 0 < (s.db.conn_list.drop i).countP isFree := Nat.lt_of_lt_of_le hpos (hR i)
  obtain ⟨c, hmem, hc⟩ := List.countP_pos_iff.mp hfree
  obtain ⟨k, hk⟩ := List.getElem?_of_mem hmem
  rw [List.getElem?_drop] at hk
  exact ⟨i + k, c, by omega, hk, by simpa [isFree] using hc⟩

/-- C19: in every state that callers reach from a pool that `new_ldap_db` has
constructed, by the atomic steps of `get_connection` and `put_connection` in
any interleaving (`UNLOCK` before `semaphore_signal`), no `RUNTIME_CHECK` has
failed, every caller that the semaphore has admitted and that is still in
the scan has a connection at its position or later whose lock is free, and
no step from the state fails the `RUNTIME_CHECK`. -/
theorem scan_finds_connection (calls : InitCalls) (host base : String) (connections : Nat)
    (mctx0 mctx : isc_mem) (ldap_db : ldap_db_t) (threads : Nat) (acts : List (Nat × Op))
    (s : Sys)
    (hnew : new_ldap_db calls host base connections mctx0 =
      Run.ret (ISC_R_SUCCESS, mctx, some ldap_db))
    (hrun : (Sys.start mctx ldap_db threads).run acts = some s) :
    s.aborted = false ∧
      (∀ t i : Nat, s.callers[t]? = some (Caller.scanning i) →
        ∃ j c, i ≤ j ∧ s.db.conn_list[j]? = some c ∧ c.lock = none) ∧
      (∀ (t : Nat) (op : Op) (s' : Sys), s.step t op = some s' → s'.aborted = false) := by
  obtain ⟨hsem, _, hlen, _, hfresh⟩ := new_ldap_db_success calls host base connections mctx0
    mctx ldap_db hnew
  obtain ⟨hinv, hroom⟩ := Sys.run_room connections acts _ s
    (Sys.start_inv mctx ldap_db threads connections hsem hlen)
    (Sys.start_room mctx ldap_db threads fun c hc => (hfresh c hc).1) hrun
  refine ⟨hroom.1, Sys.room_free_connection s hroom, ?_⟩
  intro t op s' hstep
  exact (Sys.step_room connections s s' t op hinv hroom hstep).1

theorem scan_finds_connection_witness :
    new_ldap_db all_succeed "ldap://localhost" "cn=dns" 2 ⟨[], 0, 0⟩ =
        Run.ret (ISC_R_SUCCESS, ⟨[], 3, 0⟩, some two_pool) ∧
      (Sys.start ⟨[], 3, 0⟩ two_pool 3).run two_scans = some two_pool_scanning ∧
      two_pool_scanning.callers[1]? = some (Caller.scanning 1) ∧
      (two_pool_scanning.aborted = false ∧
        (∀ t i : Nat, two_pool_scanning.callers[t]? = some (Caller.scanning i) →
          ∃ j c, i ≤ j ∧ two_pool_scanning.db.conn_list[j]? = some c ∧ c.lock = none) ∧
        (∀ (t : Nat) (op : Op) (s' : Sys), two_pool_scanning.step t op = some s' →
          s'.aborted = false)) :=
  ⟨by decide, by decide, by decide,
    scan_finds_connection all_succeed "ldap://localhost" "cn=dns" 2 ⟨[], 0, 0⟩ ⟨[], 3, 0⟩
      two_pool 3 two_scans two_pool_scanning (by decide) (by decide)⟩

end LdapHelper

namespace LdapHelper

open LdapConvert LdapConvert.isc_result_t

/-- A round entered with `rdlist` still pointing at a bucket, once it has its
node and block, fails the `REQUIRE` of `ldapdb_rdatalist_findrdatatype` that
`*rdlistp` be NULL. The one round of the source is entered with `rdlist`
NULL. -/
theorem rdatalist_round_stale_rdlist (lib : RdataLib) (record : RecordText) (mctx : isc_mem)
    (rdatalist : ldapdb_rdatalist_t) (stale rdtype ttl : Nat) (target : isc_buffer_t)
    (hclass : lib.dns_rdataclass_fromtext record.rdclass_text =
      (ISC_R_SUCCESS, dns_rdataclass_in))
    (htype : lib.dns_rdatatype_fromtext record.rdtype_text = (ISC_R_SUCCESS, rdtype))
    (httl : lib.dns_ttl_fromtext record.ttl_text = (ISC_R_SUCCESS, ttl))
    (hopen : lib.isc_lex_openbuffer record.rdata_text = ISC_R_SUCCESS)
    (hconv : lib.dns_rdata_fromtext dns_rdataclass_in rdtype record.rdata_text
      { base := List.replicate MINTSIZ 0, used := 0 } = (ISC_R_SUCCESS, target))
    (hclose : lib.isc_lex_close = ISC_R_SUCCESS)
    (hmem : ∀ b ∈ mctx.failures, b = false) :
    ldapdb_rdatalist_get_round lib record mctx rdatalist (some stale) =
      Run.abort Check.REQUIRE := by
  obtain ⟨hg1, hrest⟩ := isc_mem_get_eq_of_no_failure mctx hmem
  obtain ⟨hg2, _⟩ := isc_mem_get_eq_of_no_failure _ hrest
  unfold ldapdb_rdatalist_get_round
  simp only [hclass, htype, httl, hopen, hconv, hclose, ne_eq, not_true_eq_false, if_false]
  rw [hg1]
  simp only
  rw [hg2]
  simp only [ldapdb_rdatalist_findrdatatype]

end LdapHelper

namespace LdapHelper

open LdapConvert LdapConvert.isc_result_t

/-- For any texts of the round: when the lexer calls, the parsers and the
conversion succeed and no allocation fails, the run returns success with one
bucket of the parsed type and TTL holding one node with the used bytes of the
conversion buffer. -/
theorem rdatalist_get_record_success (lib : RdataLib) (record : RecordText) (mctx : isc_mem)
    (rdatalist : ldapdb_rdatalist_t) (rdtype ttl : Nat) (target : isc_buffer_t)
    (hlex : lib.isc_lex_create = ISC_R_SUCCESS)
    (hclass : lib.dns_rdataclass_fromtext record.rdclass_text =
      (ISC_R_SUCCESS, dns_rdataclass_in))
    (htype : lib.dns_rdatatype_fromtext record.rdtype_text = (ISC_R_SUCCESS, rdtype))
    (httl : lib.dns_ttl_fromtext record.ttl_text = (ISC_R_SUCCESS, ttl))
    (hopen : lib.isc_lex_openbuffer record.rdata_text = ISC_R_SUCCESS)
    (hconv : lib.dns_rdata_fromtext dns_rdataclass_in rdtype record.rdata_text
      { base := List.replicate MINTSIZ 0, used := 0 } = (ISC_R_SUCCESS, target))
    (hclose : lib.isc_lex_close = ISC_R_SUCCESS)
    (hmem : ∀ b ∈ mctx.failures, b = false) :
    ldapdb_rdatalist_get_record lib record mctx rdatalist =
      Run.ret (ISC_R_SUCCESS,
        isc_mem_put (isc_mem_get (isc_mem_get (isc_mem_get (isc_mem_get mctx).2).2).2).2,
        [{ rdclass := dns_rdataclass_in, type := rdtype, ttl := ttl,
           rdata := [{ data := target.base.take target.used, length := target.used,
                       rdclass := dns_rdataclass_in, type := rdtype }] }]) := by
  obtain ⟨hg1, hrest1⟩ := isc_mem_get_eq_of_no_failure mctx hmem
  obtain ⟨hg2, hrest2⟩ := isc_mem_get_eq_of_no_failure _ hrest1
  obtain ⟨hg3, hrest3⟩ := isc_mem_get_eq_of_no_failure _ hrest2
  obtain ⟨hg4, _⟩ := isc_mem_get_eq_of_no_failure _ hrest3
  have hround : ldapdb_rdatalist_get_round lib record (isc_mem_get mctx).2 [] none =
      Run.ret
        { result := ISC_R_SUCCESS, seen_error := false,
          mctx := (isc_mem_get (isc_mem_get (isc_mem_get (isc_mem_get mctx).2).2).2).2,
          rdatalist := [{ rdclass := dns_rdataclass_in, type := rdtype, ttl := ttl,
                          rdata := [{ data := target.base.take target.used,
                                      length := target.used,
                                      rdclass := dns_rdataclass_in,
                                      type := rdtype }] }],
          rdlist := some 0 } := by
    unfold ldapdb_rdatalist_get_round
    simp only [hclass, htype, httl, hopen, hconv, hclose, ne_eq, not_true_eq_false, if_false]
    rw [hg2]
    simp only
    rw [hg3]
    simp only [ldapdb_rdatalist_findrdatatype, ldapdb_rdatalist_findrdatatype_loop, if_true]
    rw [hg4]
    simp
  unfold ldapdb_rdatalist_get_record
  simp only [hlex, ne_eq, not_true_eq_false, if_false]
  rw [hg1]
  simp only [hround, Bool.false_eq_true, if_false]

/-- The function as the source has it, with its own texts: on the example
library it returns one `NS` bucket with TTL 86400 whose one node holds the
33 bytes of the name `wolverine.englab.brq.redhat.com.`. -/
theorem rdatalist_get_fixed_texts :
    ldapdb_rdatalist_get sample_rdata_lib ⟨[], 0, 0⟩ [] =
      Run.ret (ISC_R_SUCCESS, ⟨[], 4, 1⟩,
        [{ rdclass := dns_rdataclass_in, type := dns_rdatatype_ns, ttl := 86400,
           rdata := [{ data := [9, 119, 111, 108, 118, 101, 114, 105, 110, 101, 6, 101, 110,
                                103, 108, 97, 98, 3, 98, 114, 113, 6, 114, 101, 100, 104, 97,
                                116, 3, 99, 111, 109, 0],
                       length := 33, rdclass := dns_rdataclass_in,
                       type := dns_rdatatype_ns }] }]) := by
  decide

end LdapHelper

namespace LdapHelper

open LdapConvert LdapConvert.isc_result_t

/-- The part of `put_connection` before the unlock leaves the handle and the
entry cursor as they are. -/
theorem put_connection_free_keeps_entry (mctx : isc_mem) (ldap_inst : ldap_instance_t) :
    (put_connection_free mctx ldap_inst).2.entry = ldap_inst.entry ∧
      (put_connection_free mctx ldap_inst).2.handle = ldap_inst.handle ∧
      (put_connection_free mctx ldap_inst).2.result = none := by
  simp [put_connection_free, free_query_cache]

/-- The function `ldap_query` leaves the handle and the entry cursor as they
are and stores what the search found. -/
theorem ldap_query_keeps_entry (search : SearchFn) (ldap_inst : ldap_instance_t) (scope : Int)
    (attrs : List String) (attrsonly : Int) (filter : String) :
    (ldap_query search ldap_inst scope attrs attrsonly filter).1 = ISC_R_SUCCESS ∧
      (ldap_query search ldap_inst scope attrs attrsonly filter).2.entry = ldap_inst.entry ∧
      (ldap_query search ldap_inst scope attrs attrsonly filter).2.handle = ldap_inst.handle ∧
      (ldap_query search ldap_inst scope attrs attrsonly filter).2.result =
        (search ldap_inst.handle ldap_inst.base scope filter attrs attrsonly).2 := by
  simp [ldap_query]

/-- For every connection with a handle whose cursor stands at an entry message
`entry` when it is given back: after the frees of `put_connection`, the unlock,
a lock by any thread, the initialisation of `get_connection` and a query with
any search, the first `next_entry` returns the message after `entry` in the
chain of the freed result, whatever the new search stored. -/
theorem next_entry_after_checkout (search : SearchFn) (mctx : isc_mem) (ldap_db : ldap_db_t)
    (self : Nat) (ldap_inst : ldap_instance_t) (scope : Int) (attrs : List String)
    (attrsonly : Int) (filter : String) (handle : Nat) (entry : LDAPMessage)
    (hhandle : ldap_inst.handle = some handle) (hentry : ldap_inst.entry = some entry) :
    (next_entry (ldap_query search
      (get_connection_init ldap_db
        (isc_mutex_trylock self (UNLOCK (put_connection_free mctx ldap_inst).2)).2)
      scope attrs attrsonly filter).2).1 = ldap_next_entry entry := by
  simp [next_entry, ldap_query, get_connection_init, isc_mutex_trylock, UNLOCK,
    put_connection_free, free_query_cache, hhandle, hentry]

/-- C21: on a pool of one connection whose cursor stands at the first of the
two entries of its result, `put_connection` sets `result` to NULL but leaves
the cursor `entry` at that message; `get_connection` returns the same
connection, `ldap_query` stores a new result with the one entry
`idnsName=example.org, cn=dns`, and the first `next_entry` returns the second
entry of the old result, `idnsName=b, cn=dns`, not the first entry of the new
one. -/
theorem next_entry_after_checkout_stale_cursor :
    ((put_connection ⟨[], 0, 0⟩ cursor_pool 0).2.conn_list.map fun c => (c.result, c.entry)) =
        [(none, some two_entries)] ∧
      (∃ ldap_db ldap_inst,
        get_connection 1 (put_connection ⟨[], 0, 0⟩ cursor_pool 0).2 =
          some (Run.ret (0, ldap_db)) ∧
        ldap_db.conn_list[0]? = some ldap_inst ∧
        (ldap_query zone_search ldap_inst LDAP_SCOPE_SUBTREE ["idnsName"] 0
          "(objectClass=idnsZone)").2.result = some sample_result ∧
        (next_entry (ldap_query zone_search ldap_inst LDAP_SCOPE_SUBTREE ["idnsName"] 0
          "(objectClass=idnsZone)").2).1 =
          some [{ dn := "idnsName=b, cn=dns", attrs := [("aRecord", ["192.0.2.2"])] }] ∧
        (next_entry (ldap_query zone_search ldap_inst LDAP_SCOPE_SUBTREE ["idnsName"] 0
          "(objectClass=idnsZone)").2).1 ≠ ldap_first_entry sample_result) := by
  refine ⟨by decide, _, _, rfl, rfl, ?_, ?_, ?_⟩ <;> decide

end LdapHelper

namespace LdapHelper

open LdapConvert LdapConvert.isc_result_t

/-! ### A failed `isc_mutex_init` -/

/-- After a failed `isc_mutex_init` the function `new_ldap_instance` has given
back one block and reports that it was the block of the pool. -/
theorem new_ldap_instance_mutex_failure (calls : InitCalls) (i : Nat) (mctx : isc_mem)
    (hget : (isc_mem_get mctx).1 = true) (hmutex : calls.isc_mutex_init i ≠ ISC_R_SUCCESS) :
    new_ldap_instance calls i mctx =
      (calls.isc_mutex_init i, isc_mem_put (isc_mem_get mctx).2, none, true) := by
  unfold new_ldap_instance
  rcases hg : isc_mem_get mctx with ⟨ok, m⟩
  rw [hg] at hget
  simp only at hget
  subst hget
  simp [hmutex]

/-- When `isc_mutex_init` fails for the second of two connections, the pool is
given back by `new_ldap_instance` and `new_ldap_db` goes on to destroy it. -/
theorem new_ldap_db_mutex_failure :
    new_ldap_db second_mutex_fails "ldap://localhost" "cn=dns" 2 ⟨[], 0, 0⟩ =
      Run.abort Check.use_after_free := by
  decide

/-! ### A further round of the loop of `ldapdb_rdatalist_get` -/

/-- A round that ends without an error leaves the local `rdlist` pointing at a
bucket of the list. -/
theorem rdatalist_round_sets_rdlist (lib : RdataLib) (record : RecordText) (mctx : isc_mem)
    (rdatalist : ldapdb_rdatalist_t) (rdlist : Option Nat) (round : RoundState)
    (h : ldapdb_rdatalist_get_round lib record mctx rdatalist rdlist = Run.ret round)
    (hseen : round.seen_error = false) :
    ∃ i, round.rdlist = some i ∧ i < round.rdatalist.length := by
  unfold ldapdb_rdatalist_get_round at h
  simp only at h
  split at h
  · simp only [Run.ret.injEq] at h
    subst h
    simp at hseen
  split at h
  · simp at h
  split at h
  · simp only [Run.ret.injEq] at h
    subst h
    simp at hseen
  split at h
  · simp only [Run.ret.injEq] at h
    subst h
    simp at hseen
  split at h
  · simp only [Run.ret.injEq] at h
    subst h
    simp at hseen
  split at h
  · simp only [Run.ret.injEq] at h
    subst h
    simp at hseen
  split at h
  · simp at h
  split at h
  · simp only [Run.ret.injEq] at h
    subst h
    simp at hseen
  split at h
  · simp only [Run.ret.injEq] at h
    subst h
    simp at hseen
  split at h
  · simp at h
  · split at h
    · simp at h
    · next i _ found hfound =>
      split at h
      · simp at h
      · simp only [Run.ret.injEq] at h
        subst h
        have hlt := (List.getElem?_eq_some_iff.mp hfound).1
        exact ⟨_, rfl, by simpa using hlt⟩
  · split at h
    · simp only [Run.ret.injEq] at h
      subst h
      simp at hseen
    · simp only [Run.ret.injEq] at h
      subst h
      exact ⟨_, rfl, by simp⟩

/-- Every round that follows a round without error, for a record whose texts
parse and convert and with the node and its block allocated, fails the
`REQUIRE` of `ldapdb_rdatalist_findrdatatype` that `*rdlistp` be NULL, whatever
the type and the TTL of the record are: the local `rdlist` still points at the
bucket of the round before. -/
theorem rdatalist_further_round_aborts (lib : RdataLib) (earlier record : RecordText)
    (mctx : isc_mem) (rdatalist : ldapdb_rdatalist_t) (rdlist : Option Nat)
    (round : RoundState) (rdtype ttl : Nat) (target : isc_buffer_t)
    (hearlier : ldapdb_rdatalist_get_round lib earlier mctx rdatalist rdlist = Run.ret round)
    (hseen : round.seen_error = false)
    (hclass : lib.dns_rdataclass_fromtext record.rdclass_text =
      (ISC_R_SUCCESS, dns_rdataclass_in))
    (htype : lib.dns_rdatatype_fromtext record.rdtype_text = (ISC_R_SUCCESS, rdtype))
    (httl : lib.dns_ttl_fromtext record.ttl_text = (ISC_R_SUCCESS, ttl))
    (hopen : lib.isc_lex_openbuffer record.rdata_text = ISC_R_SUCCESS)
    (hconv : lib.dns_rdata_fromtext dns_rdataclass_in rdtype record.rdata_text
      { base := List.replicate MINTSIZ 0, used := 0 } = (ISC_R_SUCCESS, target))
    (hclose : lib.isc_lex_close = ISC_R_SUCCESS)
    (hmem : ∀ b ∈ round.mctx.failures, b = false) :
    ldapdb_rdatalist_get_round lib record round.mctx round.rdatalist round.rdlist =
      Run.abort Check.REQUIRE := by
  obtain ⟨i, hi, _⟩ := rdatalist_round_sets_rdlist lib earlier mctx rdatalist rdlist round
    hearlier hseen
  obtain ⟨hg1, hrest⟩ := isc_mem_get_eq_of_no_failure round.mctx hmem
  obtain ⟨hg2, _⟩ := isc_mem_get_eq_of_no_failure _ hrest
  rw [hi]
  unfold ldapdb_rdatalist_get_round
  simp only [hclass, htype, httl, hopen, hconv, hclose, ne_eq, not_true_eq_false, if_false]
  rw [hg1]
  simp only
  rw [hg2]
  simp only [ldapdb_rdatalist_findrdatatype]

/-- The function `ldapdb_rdatalist_get` on any library and any list of the
caller: when the lexer calls, the parsers and the conversion succeed on the
texts `in`, `ns`, `86400` and `wolverine.englab.brq.redhat.com.` and no
allocation fails, it returns success with one bucket of the parsed type and TTL
holding one node with the used bytes of the conversion of that text. No other
text enters the result. -/
theorem rdatalist_get_fixed_record (lib : RdataLib) (mctx : isc_mem)
    (rdatalist : ldapdb_rdatalist_t) (rdtype ttl : Nat) (target : isc_buffer_t)
    (hlex : lib.isc_lex_create = ISC_R_SUCCESS)
    (hclass : lib.dns_rdataclass_fromtext "in" = (ISC_R_SUCCESS, dns_rdataclass_in))
    (htype : lib.dns_rdatatype_fromtext "ns" = (ISC_R_SUCCESS, rdtype))
    (httl : lib.dns_ttl_fromtext "86400" = (ISC_R_SUCCESS, ttl))
    (hopen : lib.isc_lex_openbuffer "wolverine.englab.brq.redhat.com." = ISC_R_SUCCESS)
    (hconv : lib.dns_rdata_fromtext dns_rdataclass_in rdtype "wolverine.englab.brq.redhat.com."
      { base := List.replicate MINTSIZ 0, used := 0 } = (ISC_R_SUCCESS, target))
    (hclose : lib.isc_lex_close = ISC_R_SUCCESS)
    (hmem : ∀ b ∈ mctx.failures, b = false) :
    ldapdb_rdatalist_get lib mctx rdatalist =
      Run.ret (ISC_R_SUCCESS,
        isc_mem_put (isc_mem_get (isc_mem_get (isc_mem_get (isc_mem_get mctx).2).2).2).2,
        [{ rdclass := dns_rdataclass_in, type := rdtype, ttl := ttl,
           rdata := [{ data := target.base.take target.used, length := target.used,
                       rdclass := dns_rdataclass_in, type := rdtype }] }]) :=
  rdatalist_get_record_success lib fixed_record mctx rdatalist rdtype ttl target hlex hclass
    htype httl hopen hconv hclose hmem

end LdapHelper
